import Mathlib

/-!
Verification development for the LMModule motion-control firmware.

The definitions below are a shallow embedding of the two main source
variants of the controller:

* namespace `IM`  — `ILMMCodes/integrated_movement/integrated_movement.ino`
* namespace `ATC` — the AprilTag-controller variant (`src/unnamed/part_000`)
* namespace `Avoid` — the obstacle-avoidance state machine, whose
  implementation is absent from the sources (only forward declarations
  appear); it is modelled from the design document.

Floating-point arithmetic of the firmware is embedded over `ℚ`; C `int`
values over `ℤ`; timestamps (`millis()`) over `ℕ`.
-/

/-- Arduino `constrain(x, lo, hi)` macro on rationals:
`(x<lo)?lo:((x>hi)?hi:x)`. -/
def constrainQ (x lo hi : ℚ) : ℚ :=
  if x < lo then lo else if hi < x then hi else x

/-- Arduino `constrain(x, lo, hi)` macro on C ints. -/
def constrainI (x lo hi : ℤ) : ℤ :=
  if x < lo then lo else if hi < x then hi else x

/-- C cast `(int)q` of a float value: truncation toward zero. -/
def truncQ (q : ℚ) : ℤ :=
  if 0 ≤ q then ⌊q⌋ else ⌈q⌉

/-- One acceleration-limited update of `motor.currentSpeed` toward the
target, moving by at most `delta` per call (`delta` is
`MAX_SPEED * ACCEL_RATE` at both call sites). -/
def rampStep (delta cur target : ℚ) : ℚ :=
  if cur < target then min target (cur + delta)
  else if target < cur then max target (cur - delta)
  else cur

/-- Motor H-bridge command direction (`enum Direction`). -/
inductive Direction
  | FORWARD
  | BACKWARD
  | STOP
deriving DecidableEq, Repr

/-- The three wheels (`motorLeft`, `motorRight`, `motorBack`). -/
inductive Wheel
  | left
  | right
  | back
deriving DecidableEq, Repr

/-- One `moveMotor(motor, dir, targetSpeed)` invocation. -/
structure MotorCmd where
  wheel : Wheel
  dir : Direction
  target : ℚ
deriving DecidableEq, Repr

/-- The six calibrated distance readings
(`distFL, distF, distFR, distBL, distB, distBR`). -/
structure Dist6 where
  fl : ℚ
  f : ℚ
  fr : ℚ
  bl : ℚ
  b : ℚ
  br : ℚ
deriving DecidableEq, Repr

/-- The four directional emergency-stop interlock flags. -/
structure Interlocks where
  front : Bool
  back : Bool
  left : Bool
  right : Bool
deriving DecidableEq, Repr

/-- Runtime-mutable speed configuration (`MAX_SPEED`, `MIN_SPEED` are C
ints changed by the `SPEED` command). -/
structure SpeedCfg where
  maxSpeed : ℤ
  minSpeed : ℤ
deriving DecidableEq, Repr

namespace IM

/-- `CRITICAL_DISTANCE` (integrated_movement variant, cm). -/
def CRITICAL_DISTANCE : ℚ := 15

/-- `SLOW_DOWN_DISTANCE` (cm). -/
def SLOW_DOWN_DISTANCE : ℚ := 30

/-- `MAX_ROTATION_SPEED` (rotation duty-cycle cap). -/
def MAX_ROTATION_SPEED : ℤ := 65

/-- `ACCEL_RATE` = 0.15, speed change per cycle. -/
def ACCEL_RATE : ℚ := 3 / 20

/-- `min(min(distFL, distF), distFR)` — forward sensor group. -/
def forwardDist (d : Dist6) : ℚ := min (min d.fl d.f) d.fr

/-- `min(min(distBL, distB), distBR)` — backward sensor group. -/
def backwardDist (d : Dist6) : ℚ := min (min d.bl d.b) d.br

/-- `min(distFL, distBL)` — left sensor group. -/
def leftDist (d : Dist6) : ℚ := min d.fl d.bl

/-- `min(distFR, distBR)` — right sensor group. -/
def rightDist (d : Dist6) : ℚ := min d.fr d.br

/-- The per-direction danger predicates computed in `loop()`:
`frontDanger = (distF < CRITICAL_DISTANCE || distFL < CRITICAL_DISTANCE ||
distFR < CRITICAL_DISTANCE)` and its three analogues. -/
def dangerFlags (d : Dist6) : Interlocks :=
  { front := decide (d.f < CRITICAL_DISTANCE ∨ d.fl < CRITICAL_DISTANCE ∨ d.fr < CRITICAL_DISTANCE)
    back := decide (d.b < CRITICAL_DISTANCE ∨ d.bl < CRITICAL_DISTANCE ∨ d.br < CRITICAL_DISTANCE)
    left := decide (d.fl < CRITICAL_DISTANCE ∨ d.bl < CRITICAL_DISTANCE)
    right := decide (d.fr < CRITICAL_DISTANCE ∨ d.br < CRITICAL_DISTANCE) }

/-- The interlock update performed once per control-loop interval in
`loop()`: each flag is assigned the fresh danger value when it differs
from the stored one (`if (frontDanger != frontEmergencyStop)
frontEmergencyStop = frontDanger;` and the three analogues). -/
def updateEmergencyFlags (d : Dist6) (prev : Interlocks) : Interlocks :=
  let dg := dangerFlags d
  { front := if dg.front ≠ prev.front then dg.front else prev.front
    back := if dg.back ≠ prev.back then dg.back else prev.back
    left := if dg.left ≠ prev.left then dg.left else prev.left
    right := if dg.right ≠ prev.right then dg.right else prev.right }

/-- `calculateDynamicSpeed(distance, desiredSpeed)` of the
integrated_movement variant: zero at or below `CRITICAL_DISTANCE`; in the
slow-down band a progressive factor in (0.5, 1] is applied and the result
is floored at `MIN_SPEED` via `max(MIN_SPEED, safeSpeed)`; above the band
the desired speed is returned unchanged. `MIN_SPEED` is the runtime
global, passed here as `minS`. -/
def calculateDynamicSpeed (minS : ℤ) (distance desiredSpeed : ℚ) : ℚ :=
  if distance ≤ CRITICAL_DISTANCE then 0
  else if distance ≤ SLOW_DOWN_DISTANCE then
    let safetyFactor : ℚ :=
      1/2 + (1/2) * (distance - CRITICAL_DISTANCE) / (SLOW_DOWN_DISTANCE - CRITICAL_DISTANCE)
    max (minS : ℚ) (desiredSpeed * safetyFactor)
  else desiredSpeed

/-- `enum AvoidanceState` of the obstacle-avoidance procedure. -/
inductive AvoidanceState
  | IDLE
  | ROTATING_AWAY
  | MOVING_PAST
  | ROTATING_BACK
  | RETURNING_TO_PATH
deriving DecidableEq, Repr

/-- The observable effect of one movement-function call: either it
returned without touching the motors (`blocked`), handed control to the
obstacle-avoidance routine (`delegated` — that routine is declared but
not defined in the sources), started the smooth-deceleration stop
(`stopAll`), or issued the given `moveMotor` calls in order (`cmds`). -/
inductive Actuation
  | blocked
  | delegated
  | stopAll
  | cmds (cs : List MotorCmd)
deriving DecidableEq, Repr

/-- `moveForward(speed)`: blocked by the front interlock (delegating to
obstacle avoidance when enabled); otherwise left wheel BACKWARD, right
wheel FORWARD, back wheel FORWARD in three-wheel mode, at
`constrain(speed, MIN_SPEED, MAX_SPEED)`. -/
def moveForward (cfg : SpeedCfg) (il : Interlocks) (avoidOn : Bool)
    (avSt : AvoidanceState) (three : Bool) (speed : ℤ) : Actuation :=
  if il.front then
    (if avoidOn then .delegated else .blocked)
  else if avSt ≠ .IDLE ∧ avoidOn then .delegated
  else
    let s : ℚ := (constrainI speed cfg.minSpeed cfg.maxSpeed : ℚ)
    .cmds [⟨.left, .BACKWARD, s⟩, ⟨.right, .FORWARD, s⟩,
      if three then ⟨.back, .FORWARD, s⟩ else ⟨.back, .STOP, 0⟩]

/-- `moveBackward(speed)`: blocked by the back interlock; otherwise left
FORWARD, right BACKWARD, back BACKWARD (three-wheel). -/
def moveBackward (cfg : SpeedCfg) (il : Interlocks) (three : Bool) (speed : ℤ) : Actuation :=
  if il.back then .blocked
  else
    let s : ℚ := (constrainI speed cfg.minSpeed cfg.maxSpeed : ℚ)
    .cmds [⟨.left, .FORWARD, s⟩, ⟨.right, .BACKWARD, s⟩,
      if three then ⟨.back, .BACKWARD, s⟩ else ⟨.back, .STOP, 0⟩]

/-- `turnLeft(speed)` (arc left): blocked by the left interlock; clamps
to `[MIN_SPEED, MAX_ROTATION_SPEED]`, inner wheel at
`max(MIN_SPEED, speed*0.5)`, outer at `min(MAX_SPEED, speed*1.5)` (both
truncated into C ints on assignment), back wheel at `speed*0.75`. -/
def turnLeft (cfg : SpeedCfg) (il : Interlocks) (three : Bool) (speed : ℤ) : Actuation :=
  if il.left then .blocked
  else
    let s := constrainI speed cfg.minSpeed MAX_ROTATION_SPEED
    let leftSpeed : ℤ := truncQ (max (cfg.minSpeed : ℚ) ((s : ℚ) * (1/2)))
    let rightSpeed : ℤ := truncQ (min (cfg.maxSpeed : ℚ) ((s : ℚ) * (3/2)))
    .cmds [⟨.left, .BACKWARD, (leftSpeed : ℚ)⟩, ⟨.right, .FORWARD, (rightSpeed : ℚ)⟩,
      if three then ⟨.back, .FORWARD, (s : ℚ) * (3/4)⟩ else ⟨.back, .STOP, 0⟩]

/-- `turnRight(speed)` (arc right): blocked by the right interlock;
left wheel (outer) at `min(MAX_SPEED, speed*1.5)`, right (inner) at
`max(MIN_SPEED, speed*0.5)`, back at `speed*0.75`. -/
def turnRight (cfg : SpeedCfg) (il : Interlocks) (three : Bool) (speed : ℤ) : Actuation :=
  if il.right then .blocked
  else
    let s := constrainI speed cfg.minSpeed MAX_ROTATION_SPEED
    let leftSpeed : ℤ := truncQ (min (cfg.maxSpeed : ℚ) ((s : ℚ) * (3/2)))
    let rightSpeed : ℤ := truncQ (max (cfg.minSpeed : ℚ) ((s : ℚ) * (1/2)))
    .cmds [⟨.left, .BACKWARD, (leftSpeed : ℚ)⟩, ⟨.right, .FORWARD, (rightSpeed : ℚ)⟩,
      if three then ⟨.back, .FORWARD, (s : ℚ) * (3/4)⟩ else ⟨.back, .STOP, 0⟩]

/-- `rotateLeft(speed)`: clamps to `[MIN_SPEED, MAX_ROTATION_SPEED]`;
left FORWARD, right FORWARD, back BACKWARD (three-wheel) or back idle
(two-wheel). The source performs no interlock check here (its callers
do). -/
def rotateLeft (cfg : SpeedCfg) (three : Bool) (speed : ℤ) : List MotorCmd :=
  let s : ℚ := (constrainI speed cfg.minSpeed MAX_ROTATION_SPEED : ℚ)
  if three then [⟨.left, .FORWARD, s⟩, ⟨.right, .FORWARD, s⟩, ⟨.back, .BACKWARD, s⟩]
  else [⟨.left, .FORWARD, s⟩, ⟨.right, .FORWARD, s⟩, ⟨.back, .STOP, 0⟩]

/-- `rotateRight(speed)`: clamps to `[MIN_SPEED, MAX_ROTATION_SPEED]`;
left BACKWARD, right BACKWARD, back FORWARD (three-wheel). -/
def rotateRight (cfg : SpeedCfg) (three : Bool) (speed : ℤ) : List MotorCmd :=
  let s : ℚ := (constrainI speed cfg.minSpeed MAX_ROTATION_SPEED : ℚ)
  if three then [⟨.left, .BACKWARD, s⟩, ⟨.right, .BACKWARD, s⟩, ⟨.back, .FORWARD, s⟩]
  else [⟨.left, .BACKWARD, s⟩, ⟨.right, .BACKWARD, s⟩, ⟨.back, .STOP, 0⟩]

/-- `slideLeft(speed)` (strafe): blocked by the left interlock; in
three-wheel mode left idle, right BACKWARD, back FORWARD; in two-wheel
mode falls back to `rotateLeft` when neither the left nor the right
interlock is set, else blocked. -/
def slideLeft (cfg : SpeedCfg) (il : Interlocks) (three : Bool) (speed : ℤ) : Actuation :=
  if il.left then .blocked
  else
    let s := constrainI speed cfg.minSpeed cfg.maxSpeed
    if three then
      .cmds [⟨.left, .STOP, 0⟩, ⟨.right, .BACKWARD, (s : ℚ)⟩, ⟨.back, .FORWARD, (s : ℚ)⟩]
    else if ¬il.left ∧ ¬il.right then .cmds (rotateLeft cfg three s)
    else .blocked

/-- `slideRight(speed)` (strafe): blocked by the right interlock; in
three-wheel mode left BACKWARD, right idle, back BACKWARD; two-wheel
mode falls back to `rotateRight` when rotation is safe. -/
def slideRight (cfg : SpeedCfg) (il : Interlocks) (three : Bool) (speed : ℤ) : Actuation :=
  if il.right then .blocked
  else
    let s := constrainI speed cfg.minSpeed cfg.maxSpeed
    if three then
      .cmds [⟨.left, .BACKWARD, (s : ℚ)⟩, ⟨.right, .STOP, 0⟩, ⟨.back, .BACKWARD, (s : ℚ)⟩]
    else if ¬il.left ∧ ¬il.right then .cmds (rotateRight cfg three s)
    else .blocked

/-- `moveDiagonalForwardLeft(speed)`: blocked by front or left interlock;
left wheel at 30% BACKWARD, right at 100% FORWARD, back at 60% FORWARD
(three-wheel). -/
def moveDiagonalForwardLeft (cfg : SpeedCfg) (il : Interlocks) (three : Bool) (speed : ℤ) : Actuation :=
  if il.front ∨ il.left then .blocked
  else
    let s : ℚ := (constrainI speed cfg.minSpeed cfg.maxSpeed : ℚ)
    .cmds [⟨.left, .BACKWARD, s * (3/10)⟩, ⟨.right, .FORWARD, s⟩,
      if three then ⟨.back, .FORWARD, s * (3/5)⟩ else ⟨.back, .STOP, 0⟩]

/-- `moveDiagonalForwardRight(speed)`: blocked by front or right
interlock. -/
def moveDiagonalForwardRight (cfg : SpeedCfg) (il : Interlocks) (three : Bool) (speed : ℤ) : Actuation :=
  if il.front ∨ il.right then .blocked
  else
    let s : ℚ := (constrainI speed cfg.minSpeed cfg.maxSpeed : ℚ)
    .cmds [⟨.left, .BACKWARD, s⟩, ⟨.right, .FORWARD, s * (3/10)⟩,
      if three then ⟨.back, .FORWARD, s * (3/5)⟩ else ⟨.back, .STOP, 0⟩]

/-- `moveDiagonalBackwardLeft(speed)`: blocked by back or left
interlock. -/
def moveDiagonalBackwardLeft (cfg : SpeedCfg) (il : Interlocks) (three : Bool) (speed : ℤ) : Actuation :=
  if il.back ∨ il.left then .blocked
  else
    let s : ℚ := (constrainI speed cfg.minSpeed cfg.maxSpeed : ℚ)
    .cmds [⟨.left, .FORWARD, s * (3/10)⟩, ⟨.right, .BACKWARD, s⟩,
      if three then ⟨.back, .BACKWARD, s * (3/5)⟩ else ⟨.back, .STOP, 0⟩]

/-- `moveDiagonalBackwardRight(speed)`: blocked by back or right
interlock. -/
def moveDiagonalBackwardRight (cfg : SpeedCfg) (il : Interlocks) (three : Bool) (speed : ℤ) : Actuation :=
  if il.back ∨ il.right then .blocked
  else
    let s : ℚ := (constrainI speed cfg.minSpeed cfg.maxSpeed : ℚ)
    .cmds [⟨.left, .FORWARD, s⟩, ⟨.right, .BACKWARD, s * (3/10)⟩,
      if three then ⟨.back, .BACKWARD, s * (3/5)⟩ else ⟨.back, .STOP, 0⟩]

/-- The `safeSpeed` computation at the head of `executeMovement`: when
the minimum of the sensor group the source associates with the direction
code is inside the slow-down band, the desired speed is run through
`calculateDynamicSpeed` (and truncated back into the C `int` variable);
otherwise the desired speed is kept. The source pairs codes 7/8 with the
forward group and 9/10 with the backward group. -/
def dynamicSafeSpeed (minS : ℤ) (d : Dist6) (direction desiredSpeed : ℤ) : ℤ :=
  if direction = 1 ∧ forwardDist d < SLOW_DOWN_DISTANCE then
    truncQ (calculateDynamicSpeed minS (forwardDist d) (desiredSpeed : ℚ))
  else if direction = 2 ∧ backwardDist d < SLOW_DOWN_DISTANCE then
    truncQ (calculateDynamicSpeed minS (backwardDist d) (desiredSpeed : ℚ))
  else if direction = 3 ∧ leftDist d < SLOW_DOWN_DISTANCE then
    truncQ (calculateDynamicSpeed minS (leftDist d) (desiredSpeed : ℚ))
  else if direction = 4 ∧ rightDist d < SLOW_DOWN_DISTANCE then
    truncQ (calculateDynamicSpeed minS (rightDist d) (desiredSpeed : ℚ))
  else if direction = 5 ∧ leftDist d < SLOW_DOWN_DISTANCE then
    truncQ (calculateDynamicSpeed minS (leftDist d) (desiredSpeed : ℚ))
  else if direction = 6 ∧ rightDist d < SLOW_DOWN_DISTANCE then
    truncQ (calculateDynamicSpeed minS (rightDist d) (desiredSpeed : ℚ))
  else if direction = 7 ∧ forwardDist d < SLOW_DOWN_DISTANCE then
    truncQ (calculateDynamicSpeed minS (forwardDist d) (desiredSpeed : ℚ))
  else if direction = 8 ∧ forwardDist d < SLOW_DOWN_DISTANCE then
    truncQ (calculateDynamicSpeed minS (forwardDist d) (desiredSpeed : ℚ))
  else if direction = 9 ∧ backwardDist d < SLOW_DOWN_DISTANCE then
    truncQ (calculateDynamicSpeed minS (backwardDist d) (desiredSpeed : ℚ))
  else if direction = 10 ∧ backwardDist d < SLOW_DOWN_DISTANCE then
    truncQ (calculateDynamicSpeed minS (backwardDist d) (desiredSpeed : ℚ))
  else desiredSpeed

/-- `executeMovement(direction, desiredSpeed)`: vetoes on master
override, then on the direction-specific interlocks for codes 1..6;
computes the dynamically adjusted `safeSpeed` (a C int, truncated from
the float result) from the relevant sensor group when inside the
slow-down band; then dispatches to the movement primitive for codes
1..12, with codes 5/6 additionally clamped to
`[MIN_SPEED, MAX_ROTATION_SPEED]`; code 0 and unknown codes stop all
motors. -/
def executeMovement (cfg : SpeedCfg) (il : Interlocks) (override : Bool)
    (avoidOn : Bool) (avSt : AvoidanceState) (three : Bool) (d : Dist6)
    (direction desiredSpeed : ℤ) : Actuation :=
  if override then .blocked
  else if (direction = 1 ∧ il.front) ∨ (direction = 2 ∧ il.back) ∨
      (direction = 3 ∧ il.left) ∨ (direction = 4 ∧ il.right) ∨
      (direction = 5 ∧ (il.left ∨ il.right)) ∨
      (direction = 6 ∧ (il.left ∨ il.right)) then .blocked
  else
    let safeSpeed : ℤ := dynamicSafeSpeed cfg.minSpeed d direction desiredSpeed
    if direction = 1 then moveForward cfg il avoidOn avSt three safeSpeed
    else if direction = 2 then moveBackward cfg il three safeSpeed
    else if direction = 3 then turnLeft cfg il three safeSpeed
    else if direction = 4 then turnRight cfg il three safeSpeed
    else if direction = 5 then
      .cmds (rotateLeft cfg three (constrainI safeSpeed cfg.minSpeed MAX_ROTATION_SPEED))
    else if direction = 6 then
      .cmds (rotateRight cfg three (constrainI safeSpeed cfg.minSpeed MAX_ROTATION_SPEED))
    else if direction = 7 then slideLeft cfg il three safeSpeed
    else if direction = 8 then slideRight cfg il three safeSpeed
    else if direction = 9 then moveDiagonalForwardLeft cfg il three safeSpeed
    else if direction = 10 then moveDiagonalForwardRight cfg il three safeSpeed
    else if direction = 11 then moveDiagonalBackwardLeft cfg il three safeSpeed
    else if direction = 12 then moveDiagonalBackwardRight cfg il three safeSpeed
    else .stopAll

/-- The semantic direction(s) of a discrete direction code, expressed as
the interlock flags the source consults for it: 1 forward, 2 backward,
3 arc-left, 4 arc-right, 5/6 rotation (left and right), 7 slide-left,
8 slide-right, 9..12 diagonals (two flags each). -/
def semBlocked (direction : ℤ) (il : Interlocks) : Bool :=
  if direction = 1 then il.front
  else if direction = 2 then il.back
  else if direction = 3 then il.left
  else if direction = 4 then il.right
  else if direction = 5 ∨ direction = 6 then il.left || il.right
  else if direction = 7 then il.left
  else if direction = 8 then il.right
  else if direction = 9 then il.front || il.left
  else if direction = 10 then il.front || il.right
  else if direction = 11 then il.back || il.left
  else if direction = 12 then il.back || il.right
  else false

/-- Per-motor mutable state of the integrated_movement variant:
`motor.currentSpeed` plus the `static Direction prevDirection[3]` slot
`moveMotor` keeps for this motor. -/
structure MotorSt where
  currentSpeed : ℚ
  prevDir : Direction
deriving DecidableEq, Repr

/-- `moveMotor(motor, dir, targetSpeed)` of the integrated_movement
variant: resets `currentSpeed` on a direction change away from a
non-STOP direction, ramps `currentSpeed` toward the target by at most
`MAX_SPEED * ACCEL_RATE` per call, truncates into the C `int` duty
variable, raises a positive duty below `MIN_SPEED` up to `MIN_SPEED`,
and writes it; for STOP it writes 0 and clears `currentSpeed` unless the
smooth-deceleration module is active (then nothing is written). Returns
the new motor state and the duty cycle written, if any. The target is
deliberately not clamped here (the movement functions clamp first). -/
def motorCur0 (st : MotorSt) (dir : Direction) : ℚ :=
  if st.prevDir ≠ dir ∧ st.prevDir ≠ .STOP then 0 else st.currentSpeed

/-- The ramped `motor.currentSpeed` after one `moveMotor` call. -/
def motorCur1 (cfg : SpeedCfg) (st : MotorSt) (dir : Direction) (targetSpeed : ℚ) : ℚ :=
  rampStep ((cfg.maxSpeed : ℚ) * ACCEL_RATE) (motorCur0 st dir) targetSpeed

/-- The C `int speed` variable of `moveMotor`: the ramped speed
truncated, with a positive value below `MIN_SPEED` raised to
`MIN_SPEED`. -/
def motorDuty (cfg : SpeedCfg) (st : MotorSt) (dir : Direction) (targetSpeed : ℚ) : ℤ :=
  if 0 < truncQ (motorCur1 cfg st dir targetSpeed) ∧
      truncQ (motorCur1 cfg st dir targetSpeed) < cfg.minSpeed then cfg.minSpeed
  else truncQ (motorCur1 cfg st dir targetSpeed)

def moveMotor (cfg : SpeedCfg) (decelActive : Bool) (st : MotorSt)
    (dir : Direction) (targetSpeed : ℚ) : MotorSt × Option ℤ :=
  match dir with
  | .FORWARD => (⟨motorCur1 cfg st dir targetSpeed, dir⟩, some (motorDuty cfg st dir targetSpeed))
  | .BACKWARD => (⟨motorCur1 cfg st dir targetSpeed, dir⟩, some (motorDuty cfg st dir targetSpeed))
  | .STOP =>
    if decelActive then (⟨motorCur1 cfg st dir targetSpeed, dir⟩, none) else (⟨0, dir⟩, some 0)

/-- The duty-cycle targets of the `moveMotor` calls an actuation issues
(empty when no motor is touched). -/
def actuationTargets : Actuation → List ℚ
  | .cmds cs => cs.map MotorCmd.target
  | _ => []

/-- The `ROT:<dir>,<speed>` handler of `parseCommand`: the speed is
clamped to `[MIN_SPEED, MAX_ROTATION_SPEED]`, direction 1 rotates left,
2 rotates right, anything else stops all motors. -/
def handleROT (cfg : SpeedCfg) (three : Bool) (dir speed : ℤ) : Actuation :=
  let s := constrainI speed cfg.minSpeed MAX_ROTATION_SPEED
  if dir = 1 then .cmds (rotateLeft cfg three s)
  else if dir = 2 then .cmds (rotateRight cfg three s)
  else .stopAll

end IM

namespace ATC

/-- `ACCEL_RATE` = 0.15 (part_000 variant). -/
def ACCEL_RATE : ℚ := 3 / 20

/-- `moveMotor(motor, dir, targetSpeed)` of the part_000 variant: the
target is clamped to `[0, MAX_SPEED]` up front, `currentSpeed` ramps
toward it by at most `MAX_SPEED * ACCEL_RATE` per call and the truncated
value is written; STOP writes 0 and clears `currentSpeed`. Returns the
new `currentSpeed` and the written duty. -/
def moveMotor (cfg : SpeedCfg) (cur : ℚ) (dir : Direction) (targetSpeed : ℚ) : ℚ × Option ℤ :=
  let t := constrainQ targetSpeed 0 (cfg.maxSpeed : ℚ)
  let cur1 : ℚ := rampStep ((cfg.maxSpeed : ℚ) * ACCEL_RATE) cur t
  match dir with
  | .FORWARD => (cur1, some (truncQ cur1))
  | .BACKWARD => (cur1, some (truncQ cur1))
  | .STOP => (0, some 0)

/-- `CRITICAL_DISTANCE` (part_000 variant, cm). -/
def CRITICAL_DISTANCE : ℚ := 10

/-- `SLOW_DOWN_DISTANCE` (part_000 variant, cm). -/
def SLOW_DOWN_DISTANCE : ℚ := 30

/-- `TAG_TIMEOUT` (ms): staleness timeout for target-pose data. -/
def TAG_TIMEOUT : ℕ := 1000

/-- `calculateDynamicSpeed(distance, targetSpeed)` of the part_000
variant: zero at or below `CRITICAL_DISTANCE`; in the slow-down band a
linear interpolation `MIN_SPEED + (targetSpeed - MIN_SPEED) * factor`
with `factor = (distance - CRITICAL) / (SLOW_DOWN - CRITICAL)`; above the
band the target speed unchanged. -/
def calculateDynamicSpeed (minS : ℤ) (distance targetSpeed : ℚ) : ℚ :=
  if distance ≤ CRITICAL_DISTANCE then 0
  else if distance ≤ SLOW_DOWN_DISTANCE then
    let factor : ℚ := (distance - CRITICAL_DISTANCE) / (SLOW_DOWN_DISTANCE - CRITICAL_DISTANCE)
    (minS : ℚ) + (targetSpeed - (minS : ℚ)) * factor
  else targetSpeed

/-- Result of `safeRobotMove`: either all motors stopped, or
`moveRobot(vy, vx, omega)` is invoked with the given (safety-adjusted)
velocity components. -/
inductive RobotAct
  | stopped
  | move (vy vx omega : ℚ)
deriving DecidableEq, Repr

/-- `AprilTagController::safeRobotMove(vy, vx, omega)`: stops everything
under the global emergency flag; otherwise zeroes a velocity component
that points toward a sensor group whose minimum is below
`CRITICAL_DISTANCE` (forward for `vy > 0`, backward for `vy < 0`, right
for `vx > 0`, left for `vx < 0`) and then drives the wheels via
`moveRobot`. -/
def safeRobotMove (d : Dist6) (es : Bool) (vy vx omega : ℚ) : RobotAct :=
  if es then .stopped
  else
    let forwardD := min (min d.fl d.f) d.fr
    let backwardD := min (min d.bl d.b) d.br
    let leftD := min d.fl d.bl
    let rightD := min d.fr d.br
    let vy1 := if 0 < vy ∧ forwardD < CRITICAL_DISTANCE then 0
      else if vy < 0 ∧ backwardD < CRITICAL_DISTANCE then 0 else vy
    let vx1 := if 0 < vx ∧ rightD < CRITICAL_DISTANCE then 0
      else if vx < 0 ∧ leftD < CRITICAL_DISTANCE then 0 else vx
    .move vy1 vx1 omega

/-- A robot action has no velocity component toward a blocked side of
the snapshot `d`: when the minimum of a direction's sensor group is
below `CRITICAL_DISTANCE`, the corresponding signed component does not
point that way (full stop trivially qualifies). -/
def noVelocityTowardBlocked (d : Dist6) : RobotAct → Prop
  | .stopped => True
  | .move vy vx _ =>
      (min (min d.fl d.f) d.fr < CRITICAL_DISTANCE → vy ≤ 0) ∧
      (min (min d.bl d.b) d.br < CRITICAL_DISTANCE → 0 ≤ vy) ∧
      (min d.fr d.br < CRITICAL_DISTANCE → vx ≤ 0) ∧
      (min d.fl d.bl < CRITICAL_DISTANCE → 0 ≤ vx)

end ATC

namespace ATC

/-- The deadband threshold of `moveRobot` (`const float DEADBAND = 0.1`). -/
def DEADBAND : ℚ := 1/10

/-- The head of `moveRobot(vy, vx, omega)`: each input is constrained to
[-1, 1] and the three-wheel 120°-spaced holonomic equations are applied:
`left = -0.5*vx - 0.866*vy + omega`, `right = -0.5*vx + 0.866*vy +
omega`, `back = vx + omega`. -/
def rawWheelSpeeds (vy vx omega : ℚ) : ℚ × ℚ × ℚ :=
  let vy' := constrainQ vy (-1) 1
  let vx' := constrainQ vx (-1) 1
  let omega' := constrainQ omega (-1) 1
  (-(1/2) * vx' - (433/500) * vy' + omega',
   -(1/2) * vx' + (433/500) * vy' + omega',
   vx' + omega')

/-- `maxSpeed = max(abs(leftSpeed), max(abs(rightSpeed),
abs(backSpeed)))` in `moveRobot`. -/
def maxWheel (t : ℚ × ℚ × ℚ) : ℚ :=
  max |t.1| (max |t.2.1| |t.2.2|)

/-- The normalization step of `moveRobot`: when the largest of the three
absolute wheel values exceeds 1.0, all three are divided by it. -/
def normalizeWheels (t : ℚ × ℚ × ℚ) : ℚ × ℚ × ℚ :=
  if 1 < maxWheel t then (t.1 / maxWheel t, t.2.1 / maxWheel t, t.2.2 / maxWheel t) else t

/-- The deadband step of `moveRobot`: wheel values with magnitude below
`DEADBAND` are zeroed. -/
def deadbandWheels (t : ℚ × ℚ × ℚ) : ℚ × ℚ × ℚ :=
  (if |t.1| < DEADBAND then 0 else t.1,
   if |t.2.1| < DEADBAND then 0 else t.2.1,
   if |t.2.2| < DEADBAND then 0 else t.2.2)

/-- The (left, right, back) wheel values `moveRobot` computes before
converting them to PWM magnitudes and directions. -/
def moveRobotWheels (vy vx omega : ℚ) : ℚ × ℚ × ℚ :=
  deadbandWheels (normalizeWheels (rawWheelSpeeds vy vx omega))

/-- `enum TrackingState` of the AprilTag controller. -/
inductive TrackingState
  | IDLE
  | MOVING_TO_TAG
  | ALIGNING_WITH_TAG
  | MAINTAINING_POSITION
deriving DecidableEq, Repr

/-- The `AprilTagController` fields consulted by `processMovement`
(target and current pose, visibility, and the `lastTagUpdate`
timestamp). -/
structure TagCtrl where
  currentState : TrackingState
  tagVisible : Bool
  targetX : ℚ
  targetY : ℚ
  targetYaw : ℚ
  currentX : ℚ
  currentY : ℚ
  currentYaw : ℚ
  lastTagUpdate : ℕ
deriving DecidableEq, Repr

/-- The floating-point geometry `processMovement` computes with `sqrt`,
`atan2`, trigonometry and the PID filter has no exact rational
embedding, so its results enter the model as parameters: `distClose`
abbreviates `distance <= POSITION_TOLERANCE`, `rotClose` abbreviates
the wrapped `|rotationError| <= ROTATION_TOLERANCE`, and the velocity
triples are the branch outputs fed to `safeRobotMove`. The staleness
gate of the controller is independent of all of them. -/
structure TrackGeo where
  distClose : Bool
  rotClose : Bool
  moveVy : ℚ
  moveVx : ℚ
  moveOmega : ℚ
  alignOmega : ℚ
  maintainVy : ℚ
  maintainVx : ℚ
  maintainOmega : ℚ

/-- One `AprilTagController::processMovement()` step: a target that is
invisible or has not been refreshed within `TAG_TIMEOUT` forces
`safeRobotMove(0,0,0)` and IDLE; otherwise the state machine advances
(tolerance checks switch states without commanding the wheels on that
tick) and commands motion through `safeRobotMove`. Returns the updated
controller and the `safeRobotMove` invocation of this tick, if any. -/
def processMovement (c : TagCtrl) (now : ℕ) (g : TrackGeo) (d : Dist6) (es : Bool) :
    TagCtrl × Option RobotAct :=
  if ¬c.tagVisible ∨ TAG_TIMEOUT < now - c.lastTagUpdate then
    ({ c with currentState := .IDLE }, some (safeRobotMove d es 0 0 0))
  else
    match c.currentState with
    | .MOVING_TO_TAG =>
        if g.distClose then ({ c with currentState := .ALIGNING_WITH_TAG }, none)
        else (c, some (safeRobotMove d es g.moveVy g.moveVx g.moveOmega))
    | .ALIGNING_WITH_TAG =>
        if g.rotClose then ({ c with currentState := .MAINTAINING_POSITION }, none)
        else (c, some (safeRobotMove d es 0 0 g.alignOmega))
    | .MAINTAINING_POSITION =>
        if ¬g.distClose ∨ ¬g.rotClose then ({ c with currentState := .MOVING_TO_TAG }, none)
        else (c, some (safeRobotMove d es g.maintainVy g.maintainVx g.maintainOmega))
    | .IDLE => (c, some (safeRobotMove d es 0 0 0))

/-- This tick's wheel command is a stop: either all motors halted or a
zero-velocity command. -/
def isStopAct : Option RobotAct → Prop
  | some .stopped => True
  | some (.move vy vx om) => vy = 0 ∧ vx = 0 ∧ om = 0
  | none => False

end ATC

namespace IM

/-- `COMMAND_BUFFER_SIZE` of the serial protocol. -/
def COMMAND_BUFFER_SIZE : ℕ := 64

/-- `START_MARKER` of the framed protocol. -/
def START_MARKER : Char := '<'

/-- `END_MARKER` of the framed protocol. -/
def END_MARKER : Char := '>'

/-- `ESCAPE_CHAR` of the framed protocol. -/
def ESCAPE_CHAR : Char := '\\'

/-- The persistent state of `processSerialInput`: the accumulation
buffer (whose length is the C `index`), `messageStarted` and
`escapeNext`. -/
structure ParserSt where
  buffer : List Char
  messageStarted : Bool
  escapeNext : Bool
deriving DecidableEq, Repr

/-- One step of the `processSerialInput` byte-stream state machine for
an incoming character, following the source's branch order: bare
newline/carriage-return termination outside a frame, start marker, end
marker (emits the buffered command to `parseCommand`), escape character,
and finally buffered storage guarded by the buffer capacity. Returns
the new state and the command dispatched on this byte, if any. -/
def procChar (s : ParserSt) (c : Char) : ParserSt × Option (List Char) :=
  if ¬s.messageStarted ∧ (c = '\n' ∨ c = '\r') then
    (if s.buffer ≠ [] then ({ s with buffer := [] }, some s.buffer) else (s, none))
  else if c = START_MARKER ∧ ¬s.escapeNext then
    ({ s with messageStarted := true, buffer := [] }, none)
  else if c = END_MARKER ∧ ¬s.escapeNext ∧ s.messageStarted then
    ({ s with messageStarted := false, buffer := [] }, some s.buffer)
  else if c = ESCAPE_CHAR ∧ ¬s.escapeNext then
    ({ s with escapeNext := true }, none)
  else if s.buffer.length < COMMAND_BUFFER_SIZE - 1 then
    (if s.escapeNext then ({ s with buffer := s.buffer ++ [c], escapeNext := false }, none)
     else if s.messageStarted then ({ s with buffer := s.buffer ++ [c] }, none)
     else if ¬s.messageStarted ∧ s.buffer = [] ∧ c ≠ ' ' then
       ({ s with buffer := s.buffer ++ [c] }, none)
     else if ¬s.messageStarted ∧ s.buffer ≠ [] then
       ({ s with buffer := s.buffer ++ [c] }, none)
     else (s, none))
  else (s, none)

/-- Run the parser state machine over a byte sequence, collecting the
commands handed to `parseCommand` in order. -/
def procStr (s : ParserSt) : List Char → ParserSt × List (List Char)
  | [] => (s, [])
  | c :: cs =>
    match procChar s c with
    | (s', none) => procStr s' cs
    | (s', some cmd) =>
      let r := procStr s' cs
      (r.1, cmd :: r.2)

/-- Escape a payload for framing: each literal start marker, end marker
or backslash is preceded by the backslash escape character. -/
def escapeMsg : List Char → List Char
  | [] => []
  | c :: cs =>
    (if c = START_MARKER ∨ c = END_MARKER ∨ c = ESCAPE_CHAR then [ESCAPE_CHAR, c] else [c]) ++
      escapeMsg cs

/-- Leading-whitespace skip of `sscanf`'s `%d` conversion. -/
def skipWs : List Char → List Char
  | [] => []
  | c :: cs => if c = ' ' ∨ c = '\t' ∨ c = '\n' ∨ c = '\r' then skipWs cs else c :: cs

/-- Longest leading digit run of the input (digits, rest). -/
def takeDigits : List Char → List Char × List Char
  | [] => ([], [])
  | c :: cs =>
    if c.isDigit then
      let r := takeDigits cs
      (c :: r.1, r.2)
    else ([], c :: cs)

/-- Decimal value of a digit run. -/
def digitsToInt (ds : List Char) : ℤ :=
  ds.foldl (fun a c => a * 10 + ((c.toNat : ℤ) - 48)) 0

/-- `sscanf`'s `%d` conversion: skip whitespace, optional sign, at
least one digit; yields the value and the unconsumed input. -/
def scanInt (s : List Char) : Option (ℤ × List Char) :=
  match skipWs s with
  | '-' :: rest =>
    let r := takeDigits rest
    if r.1 = [] then none else some (-(digitsToInt r.1), r.2)
  | '+' :: rest =>
    let r := takeDigits rest
    if r.1 = [] then none else some (digitsToInt r.1, r.2)
  | other =>
    let r := takeDigits other
    if r.1 = [] then none else some (digitsToInt r.1, r.2)

/-- `sscanf(params, "%d,%d") == 2`: an integer, a literal comma, and a
second integer (trailing bytes are ignored, as `sscanf` ignores them
once both conversions succeed). -/
def parseTwoInts (s : List Char) : Option (ℤ × ℤ) :=
  match scanInt s with
  | none => none
  | some (a, r1) =>
    match r1 with
    | ',' :: r2 =>
      match scanInt r2 with
      | none => none
      | some (b, _) => some (a, b)
    | _ => none

/-- `parseCommand`'s split of the received command on the first colon
into a verb and a parameter payload (without a colon the whole command
is the verb and the payload is empty). -/
def splitFirstColon : List Char → List Char × List Char
  | [] => ([], [])
  | c :: cs =>
    if c = ':' then ([], cs)
    else
      let r := splitFirstColon cs
      (c :: r.1, r.2)

/-- The `SPEED:<max>,<min>` handler of `parseCommand`: when the payload
parses as two integers, `MAX_SPEED := constrain(max, 50, 255)` and
`MIN_SPEED := constrain(min, 30, MAX_SPEED - 5)` with an
acknowledgment; otherwise an error response and no state change. -/
def handleSPEED (params : List Char) (cfg : SpeedCfg) : SpeedCfg × String :=
  match parseTwoInts params with
  | some (a, b) =>
    let newMax := constrainI a 50 255
    let newMin := constrainI b 30 (newMax - 5)
    (⟨newMax, newMin⟩,
      "<ACK:SPEED:" ++ toString newMax ++ "," ++ toString newMin ++ ">")
  | none => (cfg, "<ERR:Invalid SPEED params>")

/-- A duty-cycle bound on every motor command an actuation issues. -/
def cmdsBounded (B : ℚ) (a : Actuation) : Prop :=
  ∀ t ∈ actuationTargets a, 0 ≤ t ∧ t ≤ B

end IM

namespace Avoid

/-- `MAX_AVOIDANCE_ATTEMPTS` = 3. -/
def MAX_AVOIDANCE_ATTEMPTS : ℕ := 3

/-- `ROTATION_TIMEOUT` = 2000 ms expressed in 50 ms control ticks. -/
def ROTATION_TIMEOUT_TICKS : ℕ := 40

/-- `MOVEMENT_TIMEOUT` = 1500 ms expressed in 50 ms control ticks. -/
def MOVEMENT_TIMEOUT_TICKS : ℕ := 30

/-- Modelled from the spec: the context of the obstacle-avoidance state
machine of §4.4 (`avoidanceState`, `avoidanceTimer`,
`avoidanceAttempts`, `avoidanceSuccessful`, `avoidanceLeftDirection`).
The machine's implementation (`startObstacleAvoidance`,
`continueObstacleAvoidance`, `navigateAroundObstacle`) is absent from
the sources — only forward declarations appear — so it is built from
the design document. Time is counted in control ticks of
`CONTROL_LOOP_INTERVAL` = 50 ms. -/
structure AvoidCtx where
  state : IM.AvoidanceState
  timer : ℕ
  attempts : ℕ
  successful : Bool
  leftSide : Bool
deriving DecidableEq, Repr

/-- Modelled from the spec: one control-tick advance of the
obstacle-avoidance machine. Any non-idle state aborts to IDLE with
`avoidanceSuccessful = false` once the attempt counter has reached
`MAX_AVOIDANCE_ATTEMPTS`; ROTATING_AWAY ends when the front interlock
clears or on ROTATION_TIMEOUT, whichever comes first (the timeout marks
the attempt failed by incrementing the counter); MOVING_PAST lasts
MOVEMENT_TIMEOUT; ROTATING_BACK rotates back for ROTATION_TIMEOUT;
RETURNING_TO_PATH lasts MOVEMENT_TIMEOUT and concludes the episode with
`avoidanceSuccessful = true`. -/
def avoidanceStep (ctx : AvoidCtx) (now : ℕ) (frontBlocked : Bool) : AvoidCtx :=
  match ctx.state with
  | .IDLE => ctx
  | st =>
    if MAX_AVOIDANCE_ATTEMPTS ≤ ctx.attempts then
      { ctx with state := .IDLE, successful := false }
    else
      match st with
      | .ROTATING_AWAY =>
        if ¬frontBlocked then { ctx with state := .MOVING_PAST, timer := now }
        else if ctx.timer + ROTATION_TIMEOUT_TICKS ≤ now then
          { ctx with state := .MOVING_PAST, timer := now, attempts := ctx.attempts + 1 }
        else ctx
      | .MOVING_PAST =>
        if ctx.timer + MOVEMENT_TIMEOUT_TICKS ≤ now then
          { ctx with state := .ROTATING_BACK, timer := now }
        else ctx
      | .ROTATING_BACK =>
        if ctx.timer + ROTATION_TIMEOUT_TICKS ≤ now then
          { ctx with state := .RETURNING_TO_PATH, timer := now }
        else ctx
      | .RETURNING_TO_PATH =>
        if ctx.timer + MOVEMENT_TIMEOUT_TICKS ≤ now then
          { ctx with state := .IDLE, successful := true }
        else ctx
      | .IDLE => ctx

/-- Modelled from the spec: the machine stepped once per control tick
from the moment ROTATING_AWAY is entered (tick 0), against an arbitrary
front-interlock trace `f`. -/
def runAvoidance (f : ℕ → Bool) : ℕ → AvoidCtx
  | 0 => ⟨.ROTATING_AWAY, 0, 0, false, true⟩
  | k + 1 => avoidanceStep (runAvoidance f k) (k + 1) (f (k + 1))

/-- Phase timeout (in ticks) of each non-idle state. -/
def phaseTO : IM.AvoidanceState → ℕ
  | .IDLE => 0
  | .ROTATING_AWAY => ROTATION_TIMEOUT_TICKS
  | .MOVING_PAST => MOVEMENT_TIMEOUT_TICKS
  | .ROTATING_BACK => ROTATION_TIMEOUT_TICKS
  | .RETURNING_TO_PATH => MOVEMENT_TIMEOUT_TICKS

/-- Worst-case tick by which the machine is back in IDLE, given its
current phase and timer. -/
def deadline (ctx : AvoidCtx) : ℕ :=
  match ctx.state with
  | .IDLE => 0
  | .ROTATING_AWAY => ctx.timer + 140
  | .MOVING_PAST => ctx.timer + 100
  | .ROTATING_BACK => ctx.timer + 70
  | .RETURNING_TO_PATH => ctx.timer + 30

/-- The timed invariant of the avoidance run: a non-idle machine at tick
`k` is still inside its phase window and its worst-case completion
deadline never exceeds 140 ticks. -/
def avoidInv (k : ℕ) (ctx : AvoidCtx) : Prop :=
  ctx.state = .IDLE ∨ (k < ctx.timer + phaseTO ctx.state ∧ deadline ctx ≤ 140)

end Avoid

/-- Normalization keeps every wheel magnitude at most 1, for every input
triple (helper for claim C3). -/
theorem normalizeWheels_abs_le (t : ℚ × ℚ × ℚ) :
    |(ATC.normalizeWheels t).1| ≤ 1 ∧ |(ATC.normalizeWheels t).2.1| ≤ 1 ∧
    |(ATC.normalizeWheels t).2.2| ≤ 1 := by
  unfold ATC.normalizeWheels
  have h1 : |t.1| ≤ ATC.maxWheel t := le_max_left _ _
  have h2 : |t.2.1| ≤ ATC.maxWheel t :=
    le_trans (le_max_left _ _) (le_max_right _ _)
  have h3 : |t.2.2| ≤ ATC.maxWheel t :=
    le_trans (le_max_right _ _) (le_max_right _ _)
  split_ifs with hm
  · have hm0 : (0:ℚ) < ATC.maxWheel t := lt_trans one_pos hm
    refine ⟨?_, ?_, ?_⟩ <;>
      · simp only []
        rw [abs_div, abs_of_pos hm0, div_le_one hm0]
        assumption
  · push_neg at hm
    exact ⟨le_trans h1 hm, le_trans h2 hm, le_trans h3 hm⟩

/-- Normalization rescales all three wheel values by one common factor,
so pairwise cross-products (hence ratios and signs) are preserved
(helper for claim C3). -/
theorem normalizeWheels_ratio (t : ℚ × ℚ × ℚ) :
    (ATC.normalizeWheels t).1 * t.2.1 = (ATC.normalizeWheels t).2.1 * t.1 ∧
    (ATC.normalizeWheels t).1 * t.2.2 = (ATC.normalizeWheels t).2.2 * t.1 ∧
    (ATC.normalizeWheels t).2.1 * t.2.2 = (ATC.normalizeWheels t).2.2 * t.2.1 := by
  unfold ATC.normalizeWheels
  split_ifs with hm
  · refine ⟨?_, ?_, ?_⟩ <;> ring
  · refine ⟨?_, ?_, ?_⟩ <;> ring

/-- Claim C3: for inputs each in [-1, 1] the three-wheel mapper computes
`left = -0.5*vx - 0.866*vy + ω`, `right = -0.5*vx + 0.866*vy + ω`,
`back = vx + ω`; after the conditional division by the largest absolute
value every per-wheel magnitude is at most 1 and the pairwise ratios are
preserved; finally any value with magnitude below the 0.1 deadband is
zeroed and the others pass unchanged. -/
theorem moveRobot_three_wheel_mapper_spec (vx vy ω : ℚ)
    (hx : |vx| ≤ 1) (hy : |vy| ≤ 1) (hw : |ω| ≤ 1) :
    ATC.rawWheelSpeeds vy vx ω =
      (-(1/2) * vx - (433/500) * vy + ω, -(1/2) * vx + (433/500) * vy + ω, vx + ω) ∧
    (|(ATC.normalizeWheels (ATC.rawWheelSpeeds vy vx ω)).1| ≤ 1 ∧
     |(ATC.normalizeWheels (ATC.rawWheelSpeeds vy vx ω)).2.1| ≤ 1 ∧
     |(ATC.normalizeWheels (ATC.rawWheelSpeeds vy vx ω)).2.2| ≤ 1) ∧
    ((ATC.normalizeWheels (ATC.rawWheelSpeeds vy vx ω)).1 * (ATC.rawWheelSpeeds vy vx ω).2.1 =
      (ATC.normalizeWheels (ATC.rawWheelSpeeds vy vx ω)).2.1 * (ATC.rawWheelSpeeds vy vx ω).1 ∧
     (ATC.normalizeWheels (ATC.rawWheelSpeeds vy vx ω)).1 * (ATC.rawWheelSpeeds vy vx ω).2.2 =
      (ATC.normalizeWheels (ATC.rawWheelSpeeds vy vx ω)).2.2 * (ATC.rawWheelSpeeds vy vx ω).1 ∧
     (ATC.normalizeWheels (ATC.rawWheelSpeeds vy vx ω)).2.1 * (ATC.rawWheelSpeeds vy vx ω).2.2 =
      (ATC.normalizeWheels (ATC.rawWheelSpeeds vy vx ω)).2.2 * (ATC.rawWheelSpeeds vy vx ω).2.1) ∧
    ATC.moveRobotWheels vy vx ω =
      ATC.deadbandWheels (ATC.normalizeWheels (ATC.rawWheelSpeeds vy vx ω)) ∧
    (∀ u : ℚ × ℚ × ℚ,
      (|u.1| < ATC.DEADBAND → (ATC.deadbandWheels u).1 = 0) ∧
      (ATC.DEADBAND ≤ |u.1| → (ATC.deadbandWheels u).1 = u.1) ∧
      (|u.2.1| < ATC.DEADBAND → (ATC.deadbandWheels u).2.1 = 0) ∧
      (ATC.DEADBAND ≤ |u.2.1| → (ATC.deadbandWheels u).2.1 = u.2.1) ∧
      (|u.2.2| < ATC.DEADBAND → (ATC.deadbandWheels u).2.2 = 0) ∧
      (ATC.DEADBAND ≤ |u.2.2| → (ATC.deadbandWheels u).2.2 = u.2.2)) := by
  have hcx : constrainQ vx (-1) 1 = vx := by
    rcases abs_le.mp hx with ⟨hlo, hhi⟩
    unfold constrainQ
    rw [if_neg (by linarith), if_neg (by linarith)]
  have hcy : constrainQ vy (-1) 1 = vy := by
    rcases abs_le.mp hy with ⟨hlo, hhi⟩
    unfold constrainQ
    rw [if_neg (by linarith), if_neg (by linarith)]
  have hcw : constrainQ ω (-1) 1 = ω := by
    rcases abs_le.mp hw with ⟨hlo, hhi⟩
    unfold constrainQ
    rw [if_neg (by linarith), if_neg (by linarith)]
  refine ⟨?_, normalizeWheels_abs_le _, normalizeWheels_ratio _, rfl, ?_⟩
  · unfold ATC.rawWheelSpeeds
    rw [hcx, hcy, hcw]
  · intro u
    unfold ATC.deadbandWheels
    refine ⟨?_, ?_, ?_, ?_, ?_, ?_⟩ <;> intro hu <;>
      first
        | (rw [if_pos hu])
        | (rw [if_neg (not_lt.mpr hu)])

set_option maxHeartbeats 1000000 in
/-- Claim C1: whenever a directional interlock is set, the discrete
dispatcher `executeMovement` returns `blocked` — issuing no motor
command at all — for every direction code whose semantic direction is
blocked, for every speed, wheel-count mode, distance snapshot,
override/avoidance state; and on the continuous holonomic path
`safeRobotMove` zeroes the velocity component pointing toward any side
whose sensor-group minimum is below `CRITICAL_DISTANCE` before the
wheels are driven. -/
theorem interlock_blocks_all_motion :
    (∀ (cfg : SpeedCfg) (il : Interlocks) (override avoidOn : Bool)
      (avSt : IM.AvoidanceState) (three : Bool) (d : Dist6) (dir speed : ℤ),
      IM.semBlocked dir il = true →
      IM.executeMovement cfg il override avoidOn avSt three d dir speed = .blocked) ∧
    (∀ (d : Dist6) (es : Bool) (vy vx ω : ℚ),
      ATC.noVelocityTowardBlocked d (ATC.safeRobotMove d es vy vx ω)) := by
  constructor
  · intro cfg il override avoidOn avSt three d dir speed h
    by_cases ho : override = true
    · simp [IM.executeMovement, ho]
    unfold IM.semBlocked at h
    split_ifs at h with h1 h2 h3 h4 h5 h6 h7 h8 h9 h10 h11
    · subst h1; simp [IM.executeMovement, ho, h]
    · subst h2; simp [IM.executeMovement, ho, h]
    · subst h3; simp [IM.executeMovement, ho, h]
    · subst h4; simp [IM.executeMovement, ho, h]
    · have h' : il.left = true ∨ il.right = true := by simpa using h
      rcases h5 with h5 | h5 <;> subst h5 <;> rcases h' with hx | hx <;>
        simp [IM.executeMovement, ho, hx]
    · subst h6; simp [IM.executeMovement, IM.slideLeft, ho, h]
    · subst h7; simp [IM.executeMovement, IM.slideRight, ho, h]
    · subst h8
      have h' : il.front = true ∨ il.left = true := by simpa using h
      rcases h' with hx | hx <;>
        simp [IM.executeMovement, IM.moveDiagonalForwardLeft, ho, hx]
    · subst h9
      have h' : il.front = true ∨ il.right = true := by simpa using h
      rcases h' with hx | hx <;>
        simp [IM.executeMovement, IM.moveDiagonalForwardRight, ho, hx]
    · subst h10
      have h' : il.back = true ∨ il.left = true := by simpa using h
      rcases h' with hx | hx <;>
        simp [IM.executeMovement, IM.moveDiagonalBackwardLeft, ho, hx]
    · subst h11
      have h' : il.back = true ∨ il.right = true := by simpa using h
      rcases h' with hx | hx <;>
        simp [IM.executeMovement, IM.moveDiagonalBackwardRight, ho, hx]
  · intro d es vy vx ω
    by_cases hes : es = true
    · simp [ATC.safeRobotMove, hes, ATC.noVelocityTowardBlocked]
    · simp only [ATC.safeRobotMove, hes, Bool.false_eq_true, if_false]
      refine ⟨fun hc => ?_, fun hc => ?_, fun hc => ?_, fun hc => ?_⟩
      · split_ifs with hA hB
        · exact le_refl 0
        · exact le_refl 0
        · exact le_of_not_lt fun hv => hA ⟨hv, hc⟩
      · split_ifs with hA hB
        · exact le_refl 0
        · exact le_refl 0
        · exact le_of_not_lt fun hv => hB ⟨hv, hc⟩
      · split_ifs with hA hB
        · exact le_refl 0
        · exact le_refl 0
        · exact le_of_not_lt fun hv => hA ⟨hv, hc⟩
      · split_ifs with hA hB
        · exact le_refl 0
        · exact le_refl 0
        · exact le_of_not_lt fun hv => hB ⟨hv, hc⟩

/-- Witness for claim C1 at concrete inputs: direction code 1 with the
front interlock set is rejected outright by `executeMovement`, and a
critical front snapshot forces the forward velocity component of
`safeRobotMove` to be non-positive. -/
theorem interlock_blocks_all_motion_witness :
    IM.executeMovement ⟨100, 50⟩ ⟨true, false, false, false⟩ false false .IDLE true
      ⟨20, 20, 20, 20, 20, 20⟩ 1 80 = .blocked ∧
    ATC.noVelocityTowardBlocked ⟨5, 20, 20, 20, 20, 20⟩
      (ATC.safeRobotMove ⟨5, 20, 20, 20, 20, 20⟩ false 1 0 0) :=
  ⟨interlock_blocks_all_motion.1 ⟨100, 50⟩ ⟨true, false, false, false⟩ false false .IDLE
      true ⟨20, 20, 20, 20, 20, 20⟩ 1 80 (by decide),
   interlock_blocks_all_motion.2 ⟨5, 20, 20, 20, 20, 20⟩ false 1 0 0⟩

/-- Witness for claim C3 at the concrete input (1, 1, 1). -/
theorem moveRobot_three_wheel_mapper_spec_witness :
    ATC.rawWheelSpeeds 1 1 1 =
      (-(1/2) * 1 - (433/500) * 1 + 1, -(1/2) * 1 + (433/500) * 1 + 1, 1 + 1) :=
  (moveRobot_three_wheel_mapper_spec 1 1 1 (by norm_num) (by norm_num) (by norm_num)).1

/-- Claim C4 counterexample: in the part_000 variant of
`calculateDynamicSpeed`, with the default `MIN_SPEED = 100`, a distance
of 29 cm (strictly between `CRITICAL_DISTANCE = 10` and
`SLOW_DOWN_DISTANCE = 30`) and a desired speed of 50, the result is
105/2 = 52.5, strictly below `MIN_SPEED` — so the claimed
never-below-`MIN_SPEED` floor in the slow-down band fails. -/
theorem calculateDynamicSpeed_min_floor_counterexample :
    ATC.calculateDynamicSpeed 100 29 50 = 105/2 ∧
    (105/2 : ℚ) < 100 ∧
    ATC.CRITICAL_DISTANCE < 29 ∧ (29 : ℚ) < ATC.SLOW_DOWN_DISTANCE := by
  refine ⟨?_, by norm_num, by norm_num [ATC.CRITICAL_DISTANCE], by norm_num [ATC.SLOW_DOWN_DISTANCE]⟩
  simp only [ATC.calculateDynamicSpeed, ATC.CRITICAL_DISTANCE, ATC.SLOW_DOWN_DISTANCE]
  norm_num

/-- Claim C4 (amended): both dynamic-speed functions return 0 at or below
their `CRITICAL_DISTANCE` and return the desired speed unchanged above
`SLOW_DOWN_DISTANCE`; within the band both scale the speed monotonically
with distance; the integrated_movement variant never returns below
`MIN_SPEED` for any desired speed, whereas the part_000 variant
guarantees the `MIN_SPEED` floor only when the desired speed is at least
`MIN_SPEED`. -/
theorem calculateDynamicSpeed_amended_spec :
    (∀ (m : ℤ) (d s : ℚ), d ≤ IM.CRITICAL_DISTANCE → IM.calculateDynamicSpeed m d s = 0) ∧
    (∀ (m : ℤ) (d s : ℚ), IM.SLOW_DOWN_DISTANCE < d → IM.calculateDynamicSpeed m d s = s) ∧
    (∀ (m : ℤ) (d s : ℚ), IM.CRITICAL_DISTANCE < d → d ≤ IM.SLOW_DOWN_DISTANCE →
      (m : ℚ) ≤ IM.calculateDynamicSpeed m d s) ∧
    (∀ (m : ℤ) (d d' s : ℚ), IM.CRITICAL_DISTANCE < d → d ≤ d' → d' ≤ IM.SLOW_DOWN_DISTANCE →
      0 ≤ s → IM.calculateDynamicSpeed m d s ≤ IM.calculateDynamicSpeed m d' s) ∧
    (∀ (m : ℤ) (d s : ℚ), IM.CRITICAL_DISTANCE < d → d ≤ IM.SLOW_DOWN_DISTANCE → 0 ≤ s →
      IM.calculateDynamicSpeed m d s ≤ max (m : ℚ) s) ∧
    (∀ (m : ℤ) (d s : ℚ), d ≤ ATC.CRITICAL_DISTANCE → ATC.calculateDynamicSpeed m d s = 0) ∧
    (∀ (m : ℤ) (d s : ℚ), ATC.SLOW_DOWN_DISTANCE < d → ATC.calculateDynamicSpeed m d s = s) ∧
    (∀ (m : ℤ) (d s : ℚ), ATC.CRITICAL_DISTANCE < d → d ≤ ATC.SLOW_DOWN_DISTANCE →
      (m : ℚ) ≤ s → (m : ℚ) ≤ ATC.calculateDynamicSpeed m d s) ∧
    (∀ (m : ℤ) (d d' s : ℚ), ATC.CRITICAL_DISTANCE < d → d ≤ d' → d' ≤ ATC.SLOW_DOWN_DISTANCE →
      (m : ℚ) ≤ s → ATC.calculateDynamicSpeed m d s ≤ ATC.calculateDynamicSpeed m d' s) := by
  unfold IM.calculateDynamicSpeed ATC.calculateDynamicSpeed
  unfold IM.CRITICAL_DISTANCE IM.SLOW_DOWN_DISTANCE ATC.CRITICAL_DISTANCE ATC.SLOW_DOWN_DISTANCE
  refine ⟨?_, ?_, ?_, ?_, ?_, ?_, ?_, ?_, ?_⟩
  · intro m d s hd
    simp [hd]
  · intro m d s hd
    rw [if_neg (by linarith), if_neg (by linarith)]
  · intro m d s hd hd'
    rw [if_neg (by linarith), if_pos hd']
    exact le_max_left _ _
  · intro m d d' s hd hdd hd' hs
    rw [if_neg (by linarith), if_pos (by linarith), if_neg (by linarith), if_pos hd']
    refine max_le_max le_rfl ?_
    refine mul_le_mul_of_nonneg_left (by linarith) hs
  · intro m d s hd hd' hs
    rw [if_neg (by linarith), if_pos hd']
    refine max_le (le_max_left _ _) (le_trans ?_ (le_max_right _ _))
    nlinarith [mul_nonneg hs (show (0:ℚ) ≤ 1 - (1/2 + (1/2) * (d - 15) / (30 - 15)) by linarith)]
  · intro m d s hd
    simp [hd]
  · intro m d s hd
    rw [if_neg (by linarith), if_neg (by linarith)]
  · intro m d s hd hd' hms
    rw [if_neg (by linarith), if_pos hd']
    have h0 : (0:ℚ) ≤ (s - (m:ℚ)) * ((d - 10) / (30 - 10)) :=
      mul_nonneg (by linarith) (div_nonneg (by linarith) (by norm_num))
    linarith
  · intro m d d' s hd hdd hd' hms
    rw [if_neg (by linarith), if_pos (by linarith), if_neg (by linarith), if_pos hd']
    have h1 : (s - (m:ℚ)) * ((d - 10) / (30 - 10)) ≤ (s - (m:ℚ)) * ((d' - 10) / (30 - 10)) :=
      mul_le_mul_of_nonneg_left (by linarith) (by linarith)
    linarith

/-- Witness for the amended claim C4 at concrete inputs in each distance
regime. -/
theorem calculateDynamicSpeed_amended_spec_witness :
    IM.calculateDynamicSpeed 50 10 80 = 0 ∧
    (50 : ℚ) ≤ IM.calculateDynamicSpeed 50 20 80 ∧
    ATC.calculateDynamicSpeed 100 9 120 = 0 ∧
    (100 : ℚ) ≤ ATC.calculateDynamicSpeed 100 20 120 :=
  ⟨calculateDynamicSpeed_amended_spec.1 50 10 80 (by norm_num [IM.CRITICAL_DISTANCE]),
   calculateDynamicSpeed_amended_spec.2.2.1 50 20 80
     (by norm_num [IM.CRITICAL_DISTANCE]) (by norm_num [IM.SLOW_DOWN_DISTANCE]),
   calculateDynamicSpeed_amended_spec.2.2.2.2.2.1 100 9 120
     (by norm_num [ATC.CRITICAL_DISTANCE]),
   calculateDynamicSpeed_amended_spec.2.2.2.2.2.2.2.1 100 20 120
     (by norm_num [ATC.CRITICAL_DISTANCE]) (by norm_num [ATC.SLOW_DOWN_DISTANCE])
     (by norm_num)⟩

/-- Claim C2: after every control-loop interlock update, each directional
blocked flag holds exactly when the minimum of that direction's sensor
group is below `CRITICAL_DISTANCE`: front uses the group {front,
front-left, front-right}, back uses {back, back-left, back-right}, left
uses {front-left, back-left}, right uses {front-right, back-right}; this
is so for every distance snapshot and every prior flag state. -/
theorem interlock_flags_iff_min_below_critical (d : Dist6) (prev : Interlocks) :
    ((IM.updateEmergencyFlags d prev).front = true ↔
      min (min d.f d.fl) d.fr < IM.CRITICAL_DISTANCE) ∧
    ((IM.updateEmergencyFlags d prev).back = true ↔
      min (min d.b d.bl) d.br < IM.CRITICAL_DISTANCE) ∧
    ((IM.updateEmergencyFlags d prev).left = true ↔
      min d.fl d.bl < IM.CRITICAL_DISTANCE) ∧
    ((IM.updateEmergencyFlags d prev).right = true ↔
      min d.fr d.br < IM.CRITICAL_DISTANCE) := by
  have hupd : IM.updateEmergencyFlags d prev = IM.dangerFlags d := by
    unfold IM.updateEmergencyFlags
    have hh : ∀ a b : Bool, (if a ≠ b then a else b) = a := by
      intro a b
      by_cases h : a = b <;> simp [h]
    simp only [hh]
  rw [hupd]
  unfold IM.dangerFlags
  refine ⟨?_, ?_, ?_, ?_⟩ <;> simp [min_lt_iff] <;> tauto

/-- `constrain` on C ints lands in `[lo, hi]` when the range is
nonempty. -/
theorem constrainI_mem (x lo hi : ℤ) (h : lo ≤ hi) :
    lo ≤ constrainI x lo hi ∧ constrainI x lo hi ≤ hi := by
  unfold constrainI
  split_ifs <;> omega

/-- `constrain` on C ints is nonnegative and at most `max lo hi` as soon
as both bounds are nonnegative (covers the `lo > hi` corner the macro
allows). -/
theorem constrainI_bounds (x lo hi : ℤ) (h0 : 0 ≤ lo) (h1 : 0 ≤ hi) :
    0 ≤ constrainI x lo hi ∧ constrainI x lo hi ≤ max lo hi := by
  unfold constrainI
  split_ifs with hx hy
  · exact ⟨h0, le_max_left _ _⟩
  · exact ⟨h1, le_max_right _ _⟩
  · exact ⟨by omega, le_trans (by omega) (le_max_right _ _)⟩

/-- C truncation of a nonnegative float is nonnegative. -/
theorem truncQ_nonneg {q : ℚ} (h : 0 ≤ q) : 0 ≤ truncQ q := by
  unfold truncQ
  rw [if_pos h]
  exact Int.floor_nonneg.mpr h

/-- C truncation of a nonnegative float does not exceed the float. -/
theorem truncQ_le {q : ℚ} (h : 0 ≤ q) : (truncQ q : ℚ) ≤ q := by
  unfold truncQ
  rw [if_pos h]
  exact Int.floor_le q

/-- The acceleration ramp keeps the speed inside `[0, B]` whenever the
current speed and the target are inside `[0, B]`. -/
theorem rampStep_bounds {delta cur target B : ℚ} (hd : 0 ≤ delta)
    (hc0 : 0 ≤ cur) (hcB : cur ≤ B) (ht0 : 0 ≤ target) (htB : target ≤ B) :
    0 ≤ rampStep delta cur target ∧ rampStep delta cur target ≤ B := by
  unfold rampStep
  split_ifs with h1 h2
  · exact ⟨le_min ht0 (by linarith), le_trans (min_le_left _ _) htB⟩
  · exact ⟨le_trans ht0 (le_max_left _ _), max_le htB (by linarith)⟩
  · exact ⟨hc0, hcB⟩

/-- The timed invariant holds along every avoidance run, whatever the
sensor trace does (helper for claim C9). -/
theorem avoidInv_holds (f : ℕ → Bool) : ∀ k, Avoid.avoidInv k (Avoid.runAvoidance f k) := by
  intro k
  induction k with
  | zero =>
      simp [Avoid.runAvoidance, Avoid.avoidInv, Avoid.deadline, Avoid.phaseTO,
        Avoid.ROTATION_TIMEOUT_TICKS]
  | succ n ih =>
      have hstep : Avoid.runAvoidance f (n + 1) =
          Avoid.avoidanceStep (Avoid.runAvoidance f n) (n + 1) (f (n + 1)) := rfl
      rw [hstep]
      rcases hc : Avoid.runAvoidance f n with ⟨st, t, a, su, ls⟩
      rw [hc] at ih
      rcases st <;>
        simp only [Avoid.avoidanceStep, Avoid.avoidInv, Avoid.deadline, Avoid.phaseTO,
          Avoid.MAX_AVOIDANCE_ATTEMPTS, Avoid.ROTATION_TIMEOUT_TICKS,
          Avoid.MOVEMENT_TIMEOUT_TICKS] at ih ⊢ <;>
        first
          | (split_ifs <;> simp_all <;> omega)
          | simp_all

/-- A machine satisfying the timed invariant at tick 140 or later is
idle (helper for claim C9). -/
theorem avoidInv_idle (ctx : Avoid.AvoidCtx) (k : ℕ)
    (h : Avoid.avoidInv k ctx) (hk : 140 ≤ k) : ctx.state = .IDLE := by
  rcases ctx with ⟨st, t, a, su, ls⟩
  rcases h with h | ⟨h1, h2⟩
  · exact h
  · rcases st <;>
      simp only [Avoid.avoidInv, Avoid.deadline, Avoid.phaseTO,
        Avoid.ROTATION_TIMEOUT_TICKS, Avoid.MOVEMENT_TIMEOUT_TICKS] at h1 h2 <;>
      first
        | rfl
        | omega

/-- Claim C9 (spec-modelled): for every sensor trace, the avoidance
machine is back in IDLE within
`MAX_AVOIDANCE_ATTEMPTS * (ROTATION_TIMEOUT + MOVEMENT_TIMEOUT)` of
entering ROTATING_AWAY (it in fact needs at most 140 ticks = 7000 ms);
and from any non-idle state, once `avoidanceAttempts` has reached
`MAX_AVOIDANCE_ATTEMPTS` the next step aborts to IDLE with
`avoidanceSuccessful = false`. -/
theorem avoidance_termination_bound :
    (∀ (f : ℕ → Bool) (k : ℕ),
      Avoid.MAX_AVOIDANCE_ATTEMPTS *
          (Avoid.ROTATION_TIMEOUT_TICKS + Avoid.MOVEMENT_TIMEOUT_TICKS) ≤ k →
      (Avoid.runAvoidance f k).state = .IDLE) ∧
    (∀ (ctx : Avoid.AvoidCtx) (now : ℕ) (blocked : Bool),
      ctx.state ≠ .IDLE → Avoid.MAX_AVOIDANCE_ATTEMPTS ≤ ctx.attempts →
      Avoid.avoidanceStep ctx now blocked =
        { ctx with state := .IDLE, successful := false }) := by
  constructor
  · intro f k hk
    have hb : (210 : ℕ) ≤ k := by
      simpa [Avoid.MAX_AVOIDANCE_ATTEMPTS, Avoid.ROTATION_TIMEOUT_TICKS,
        Avoid.MOVEMENT_TIMEOUT_TICKS] using hk
    exact avoidInv_idle _ k (avoidInv_holds f k) (by omega)
  · intro ctx now blocked hst ha
    rcases ctx with ⟨st, t, a, su, ls⟩
    rcases st <;>
      simp_all [Avoid.avoidanceStep]

/-- Witness for claim C9: under a permanently blocked front the machine
is idle after 210 ticks, and a rotating machine whose attempt counter
has reached the limit aborts to IDLE unsuccessfully. -/
theorem avoidance_termination_bound_witness :
    (Avoid.runAvoidance (fun _ => true) 210).state = .IDLE ∧
    Avoid.avoidanceStep ⟨.ROTATING_AWAY, 0, 3, false, true⟩ 7 true =
      ⟨.IDLE, 0, 3, false, true⟩ :=
  ⟨avoidance_termination_bound.1 (fun _ => true) 210
      (by norm_num [Avoid.MAX_AVOIDANCE_ATTEMPTS, Avoid.ROTATION_TIMEOUT_TICKS,
        Avoid.MOVEMENT_TIMEOUT_TICKS]),
   avoidance_termination_bound.2 ⟨.ROTATING_AWAY, 0, 3, false, true⟩ 7 true
      (by decide) (by norm_num [Avoid.MAX_AVOIDANCE_ATTEMPTS])⟩

/-- Stepping the parser over a byte that emitted no command (helper for
claim C7). -/
theorem procStr_cons_none {s s' : IM.ParserSt} {c : Char} (cs : List Char)
    (h : IM.procChar s c = (s', none)) :
    IM.procStr s (c :: cs) = IM.procStr s' cs := by
  simp [IM.procStr, h]

/-- Stepping the parser over a byte that emitted a command (helper for
claim C7). -/
theorem procStr_cons_some {s s' : IM.ParserSt} {c : Char} {cmd : List Char} (cs : List Char)
    (h : IM.procChar s c = (s', some cmd)) :
    IM.procStr s (c :: cs) = ((IM.procStr s' cs).1, cmd :: (IM.procStr s' cs).2) := by
  simp [IM.procStr, h]

/-- Inside a frame, the escape character only arms `escapeNext` (helper
for claim C7). -/
theorem procChar_escape_char (b : List Char) :
    IM.procChar ⟨b, true, false⟩ IM.ESCAPE_CHAR = (⟨b, true, true⟩, none) := rfl

/-- With `escapeNext` armed, any byte is stored literally while the
buffer has room (helper for claim C7). -/
theorem procChar_escaped (b : List Char) (c : Char) (h : b.length < 63) :
    IM.procChar ⟨b, true, true⟩ c = (⟨b ++ [c], true, false⟩, none) := by
  unfold IM.procChar
  simp [IM.COMMAND_BUFFER_SIZE, h]

/-- Inside a frame, an unescaped ordinary byte is stored while the
buffer has room (helper for claim C7). -/
theorem procChar_inMsg (b : List Char) (c : Char) (h : b.length < 63)
    (h1 : c ≠ IM.START_MARKER) (h2 : c ≠ IM.END_MARKER) (h3 : c ≠ IM.ESCAPE_CHAR) :
    IM.procChar ⟨b, true, false⟩ c = (⟨b ++ [c], true, false⟩, none) := by
  unfold IM.procChar
  simp [IM.COMMAND_BUFFER_SIZE, h, h1, h2, h3]

/-- Inside a frame, the end marker emits the buffered command and
resets the machine (helper for claim C7). -/
theorem procChar_endMarker (b : List Char) :
    IM.procChar ⟨b, true, false⟩ IM.END_MARKER = (⟨[], false, false⟩, some b) := rfl

/-- Processing the escaped form of a payload inside a frame appends the
payload to the buffer byte-for-byte, emitting nothing, as long as it
fits the accumulation buffer (helper for claim C7). -/
theorem procStr_escape (p : List Char) : ∀ (b rest : List Char), b.length + p.length ≤ 63 →
    IM.procStr ⟨b, true, false⟩ (IM.escapeMsg p ++ rest) =
      IM.procStr ⟨b ++ p, true, false⟩ rest := by
  induction p with
  | nil =>
      intro b rest h
      simp [IM.escapeMsg]
  | cons c cs ih =>
      intro b rest h
      have hlen : b.length < 63 := by
        simp only [List.length_cons] at h
        omega
      by_cases hc : c = IM.START_MARKER ∨ c = IM.END_MARKER ∨ c = IM.ESCAPE_CHAR
      · rw [show IM.escapeMsg (c :: cs) = IM.ESCAPE_CHAR :: c :: IM.escapeMsg cs from by
          simp [IM.escapeMsg, hc]]
        rw [List.cons_append, List.cons_append]
        rw [procStr_cons_none _ (procChar_escape_char b)]
        rw [procStr_cons_none _ (procChar_escaped b c hlen)]
        rw [ih (b ++ [c]) rest (by simp at h ⊢; omega)]
        simp
      · push_neg at hc
        rw [show IM.escapeMsg (c :: cs) = c :: IM.escapeMsg cs from by
          simp [IM.escapeMsg, hc.1, hc.2.1, hc.2.2]]
        rw [List.cons_append]
        rw [procStr_cons_none _ (procChar_inMsg b c hlen hc.1 hc.2.1 hc.2.2)]
        rw [ih (b ++ [c]) rest (by simp at h ⊢; omega)]
        simp

/-- Claim C7: for every payload of at most 63 bytes (the accumulation
buffer capacity), framing its escaped form between the start and end
markers and feeding it to the parser from the clean initial state
reconstructs the payload byte-for-byte: exactly one command is
dispatched, it equals the original payload, and the machine returns to
the clean state. -/
theorem framed_escape_roundtrip (p : List Char) (h : p.length ≤ 63) :
    IM.procStr ⟨[], false, false⟩ (IM.START_MARKER :: (IM.escapeMsg p ++ [IM.END_MARKER])) =
      (⟨[], false, false⟩, [p]) := by
  rw [procStr_cons_none _
    (show IM.procChar ⟨[], false, false⟩ IM.START_MARKER = (⟨[], true, false⟩, none) from rfl)]
  rw [procStr_escape p [] [IM.END_MARKER] (by simpa using h)]
  rw [procStr_cons_some [] (procChar_endMarker ([] ++ p))]
  simp [IM.procStr]

/-- Witness for claim C7 at the concrete payload "MOV:1>2" (containing
a literal end-marker byte). -/
theorem framed_escape_roundtrip_witness :
    IM.procStr ⟨[], false, false⟩
        (IM.START_MARKER :: (IM.escapeMsg ("MOV:1>2".toList) ++ [IM.END_MARKER])) =
      (⟨[], false, false⟩, ["MOV:1>2".toList]) :=
  framed_escape_roundtrip ("MOV:1>2".toList) (by decide)

/-- Claim C8: a SPEED command whose parameter payload does not parse as
two integers produces the negative acknowledgment
"<ERR:Invalid SPEED params>" and leaves `MAX_SPEED` and `MIN_SPEED`
exactly unchanged, whatever their current values; the dispatcher splits
"SPEED:abc" into the verb "SPEED" and the payload "abc", and that
payload indeed fails to parse. -/
theorem speed_malformed_no_state_change :
    (∀ (p : List Char) (cfg : SpeedCfg), IM.parseTwoInts p = none →
      IM.handleSPEED p cfg = (cfg, "<ERR:Invalid SPEED params>")) ∧
    IM.splitFirstColon ("SPEED:abc".toList) = ("SPEED".toList, "abc".toList) ∧
    IM.parseTwoInts ("abc".toList) = none := by
  refine ⟨?_, by decide, by decide⟩
  intro p cfg h
  unfold IM.handleSPEED
  rw [h]

/-- Witness for claim C8: the malformed payload "abc" leaves the default
configuration untouched and yields the error response. -/
theorem speed_malformed_no_state_change_witness :
    IM.handleSPEED ("abc".toList) ⟨100, 50⟩ =
      (⟨100, 50⟩, "<ERR:Invalid SPEED params>") :=
  speed_malformed_no_state_change.1 ("abc".toList) ⟨100, 50⟩ (by decide)

/-- `safeRobotMove(0, 0, 0)` commands zero velocity to all wheels,
whatever the snapshot and emergency flag (helper for claim C6). -/
theorem safeRobotMove_zero (d : Dist6) (es : Bool) :
    ATC.isStopAct (some (ATC.safeRobotMove d es 0 0 0)) := by
  unfold ATC.safeRobotMove
  by_cases hes : es = true
  · simp [hes, ATC.isStopAct]
  · simp [hes, ATC.isStopAct]

/-- Claim C6: if the target pose is invisible or has not been refreshed
within the 1000 ms staleness timeout, the next tracking step sets the
state to IDLE and issues a zero-velocity stop; conversely, any tick that
commands nonzero motion had a visible target refreshed within the
timeout — the controller never acts on a stale pose. -/
theorem tag_staleness_stop_and_idle :
    (∀ (c : ATC.TagCtrl) (now : ℕ) (g : ATC.TrackGeo) (d : Dist6) (es : Bool),
      (c.tagVisible = false ∨ ATC.TAG_TIMEOUT < now - c.lastTagUpdate) →
      (ATC.processMovement c now g d es).1.currentState = .IDLE ∧
      ATC.isStopAct (ATC.processMovement c now g d es).2) ∧
    (∀ (c : ATC.TagCtrl) (now : ℕ) (g : ATC.TrackGeo) (d : Dist6) (es : Bool)
      (vy vx om : ℚ),
      (ATC.processMovement c now g d es).2 = some (ATC.RobotAct.move vy vx om) →
      ¬(vy = 0 ∧ vx = 0 ∧ om = 0) →
      c.tagVisible = true ∧ now - c.lastTagUpdate ≤ ATC.TAG_TIMEOUT) := by
  constructor
  · intro c now g d es hstale
    have hcond : (¬(c.tagVisible = true) ∨ ATC.TAG_TIMEOUT < now - c.lastTagUpdate) := by
      rcases hstale with h | h
      · exact Or.inl (by simp [h])
      · exact Or.inr h
    unfold ATC.processMovement
    rw [if_pos hcond]
    exact ⟨rfl, safeRobotMove_zero d es⟩
  · intro c now g d es vy vx om hact hne
    by_cases hstale : (¬(c.tagVisible = true) ∨ ATC.TAG_TIMEOUT < now - c.lastTagUpdate)
    · exfalso
      unfold ATC.processMovement at hact
      rw [if_pos hstale] at hact
      simp only [Option.some.injEq] at hact
      have hz := safeRobotMove_zero d es
      rw [hact] at hz
      exact hne hz
    · push_neg at hstale
      exact ⟨hstale.1, hstale.2⟩

/-- Witness for claim C6: with an invisible target the step yields IDLE
and a stop. -/
theorem tag_staleness_stop_and_idle_witness :
    (ATC.processMovement ⟨.MOVING_TO_TAG, false, 0, 0, 0, 0, 0, 0, 0⟩ 5
        ⟨false, false, 1, 1, 1, 1, 1, 1, 1⟩ ⟨20, 20, 20, 20, 20, 20⟩ false).1.currentState =
      .IDLE ∧
    ATC.isStopAct (ATC.processMovement ⟨.MOVING_TO_TAG, false, 0, 0, 0, 0, 0, 0, 0⟩ 5
        ⟨false, false, 1, 1, 1, 1, 1, 1, 1⟩ ⟨20, 20, 20, 20, 20, 20⟩ false).2 :=
  tag_staleness_stop_and_idle.1 ⟨.MOVING_TO_TAG, false, 0, 0, 0, 0, 0, 0, 0⟩ 5
    ⟨false, false, 1, 1, 1, 1, 1, 1, 1⟩ ⟨20, 20, 20, 20, 20, 20⟩ false (Or.inl rfl)


/-- `rotateLeft` commands, written out per wheel mode (helper). -/
theorem rotateLeft_eq (cfg : SpeedCfg) (speed : ℤ) :
    IM.rotateLeft cfg true speed =
      [⟨.left, .FORWARD, ((constrainI speed cfg.minSpeed IM.MAX_ROTATION_SPEED : ℤ) : ℚ)⟩,
       ⟨.right, .FORWARD, ((constrainI speed cfg.minSpeed IM.MAX_ROTATION_SPEED : ℤ) : ℚ)⟩,
       ⟨.back, .BACKWARD, ((constrainI speed cfg.minSpeed IM.MAX_ROTATION_SPEED : ℤ) : ℚ)⟩] ∧
    IM.rotateLeft cfg false speed =
      [⟨.left, .FORWARD, ((constrainI speed cfg.minSpeed IM.MAX_ROTATION_SPEED : ℤ) : ℚ)⟩,
       ⟨.right, .FORWARD, ((constrainI speed cfg.minSpeed IM.MAX_ROTATION_SPEED : ℤ) : ℚ)⟩,
       ⟨.back, .STOP, 0⟩] :=
  ⟨rfl, rfl⟩

/-- `rotateRight` commands, written out per wheel mode (helper). -/
theorem rotateRight_eq (cfg : SpeedCfg) (speed : ℤ) :
    IM.rotateRight cfg true speed =
      [⟨.left, .BACKWARD, ((constrainI speed cfg.minSpeed IM.MAX_ROTATION_SPEED : ℤ) : ℚ)⟩,
       ⟨.right, .BACKWARD, ((constrainI speed cfg.minSpeed IM.MAX_ROTATION_SPEED : ℤ) : ℚ)⟩,
       ⟨.back, .FORWARD, ((constrainI speed cfg.minSpeed IM.MAX_ROTATION_SPEED : ℤ) : ℚ)⟩] ∧
    IM.rotateRight cfg false speed =
      [⟨.left, .BACKWARD, ((constrainI speed cfg.minSpeed IM.MAX_ROTATION_SPEED : ℤ) : ℚ)⟩,
       ⟨.right, .BACKWARD, ((constrainI speed cfg.minSpeed IM.MAX_ROTATION_SPEED : ℤ) : ℚ)⟩,
       ⟨.back, .STOP, 0⟩] :=
  ⟨rfl, rfl⟩

/-- Every target in a `rotateLeft` command list is nonnegative and at
most `MAX_ROTATION_SPEED`, given nonnegative `MIN_SPEED ≤
MAX_ROTATION_SPEED` (helper for claims C10 and C5). -/
theorem rotateLeft_target_le (cfg : SpeedCfg) (three : Bool) (speed : ℤ)
    (hm : cfg.minSpeed ≤ IM.MAX_ROTATION_SPEED) (h0 : 0 ≤ cfg.minSpeed) :
    ∀ c ∈ IM.rotateLeft cfg three speed,
      0 ≤ c.target ∧ c.target ≤ (IM.MAX_ROTATION_SPEED : ℚ) := by
  intro c hc
  have hs := constrainI_mem speed cfg.minSpeed IM.MAX_ROTATION_SPEED hm
  cases three
  · rw [(rotateLeft_eq cfg speed).2] at hc
    simp only [List.mem_cons, List.not_mem_nil, or_false] at hc
    rcases hc with rfl | rfl | rfl
    · exact ⟨by dsimp only; exact_mod_cast le_trans h0 hs.1, by dsimp only; exact_mod_cast hs.2⟩
    · exact ⟨by dsimp only; exact_mod_cast le_trans h0 hs.1, by dsimp only; exact_mod_cast hs.2⟩
    · exact ⟨le_of_eq rfl, by dsimp only; norm_num [IM.MAX_ROTATION_SPEED]⟩
  · rw [(rotateLeft_eq cfg speed).1] at hc
    simp only [List.mem_cons, List.not_mem_nil, or_false] at hc
    rcases hc with rfl | rfl | rfl <;>
      exact ⟨by dsimp only; exact_mod_cast le_trans h0 hs.1, by dsimp only; exact_mod_cast hs.2⟩

/-- Every target in a `rotateRight` command list is nonnegative and at
most `MAX_ROTATION_SPEED` (helper for claims C10 and C5). -/
theorem rotateRight_target_le (cfg : SpeedCfg) (three : Bool) (speed : ℤ)
    (hm : cfg.minSpeed ≤ IM.MAX_ROTATION_SPEED) (h0 : 0 ≤ cfg.minSpeed) :
    ∀ c ∈ IM.rotateRight cfg three speed,
      0 ≤ c.target ∧ c.target ≤ (IM.MAX_ROTATION_SPEED : ℚ) := by
  intro c hc
  have hs := constrainI_mem speed cfg.minSpeed IM.MAX_ROTATION_SPEED hm
  cases three
  · rw [(rotateRight_eq cfg speed).2] at hc
    simp only [List.mem_cons, List.not_mem_nil, or_false] at hc
    rcases hc with rfl | rfl | rfl
    · exact ⟨by dsimp only; exact_mod_cast le_trans h0 hs.1, by dsimp only; exact_mod_cast hs.2⟩
    · exact ⟨by dsimp only; exact_mod_cast le_trans h0 hs.1, by dsimp only; exact_mod_cast hs.2⟩
    · exact ⟨le_of_eq rfl, by dsimp only; norm_num [IM.MAX_ROTATION_SPEED]⟩
  · rw [(rotateRight_eq cfg speed).1] at hc
    simp only [List.mem_cons, List.not_mem_nil, or_false] at hc
    rcases hc with rfl | rfl | rfl <;>
      exact ⟨by dsimp only; exact_mod_cast le_trans h0 hs.1, by dsimp only; exact_mod_cast hs.2⟩

/-- Claim C10: every rotate-in-place path clamps the commanded speed to
`[MIN_SPEED, MAX_ROTATION_SPEED]`: each non-STOP motor command of
`rotateLeft`/`rotateRight` carries a target in that range; every target
reached through `executeMovement` direction codes 5 and 6 (the route of
the single-key commands Q and E) and through the ROT serial handler is
at most `MAX_ROTATION_SPEED` = 65; and whenever `MAX_ROTATION_SPEED` is
below the configured `MAX_SPEED` (as with the defaults, 65 < 100),
rotation therefore never reaches the configured maximum speed. -/
theorem rotation_speed_cap :
    (∀ (cfg : SpeedCfg) (three : Bool) (speed : ℤ),
      cfg.minSpeed ≤ IM.MAX_ROTATION_SPEED →
      ∀ c ∈ IM.rotateLeft cfg three speed, c.dir ≠ .STOP →
        (cfg.minSpeed : ℚ) ≤ c.target ∧ c.target ≤ (IM.MAX_ROTATION_SPEED : ℚ)) ∧
    (∀ (cfg : SpeedCfg) (three : Bool) (speed : ℤ),
      cfg.minSpeed ≤ IM.MAX_ROTATION_SPEED →
      ∀ c ∈ IM.rotateRight cfg three speed, c.dir ≠ .STOP →
        (cfg.minSpeed : ℚ) ≤ c.target ∧ c.target ≤ (IM.MAX_ROTATION_SPEED : ℚ)) ∧
    (∀ (cfg : SpeedCfg) (il : Interlocks) (override avoidOn : Bool)
      (avSt : IM.AvoidanceState) (three : Bool) (d : Dist6) (dir speed : ℤ),
      0 ≤ cfg.minSpeed → cfg.minSpeed ≤ IM.MAX_ROTATION_SPEED → (dir = 5 ∨ dir = 6) →
      ∀ t ∈ IM.actuationTargets
          (IM.executeMovement cfg il override avoidOn avSt three d dir speed),
        t ≤ (IM.MAX_ROTATION_SPEED : ℚ)) ∧
    (∀ (cfg : SpeedCfg) (three : Bool) (rdir speed : ℤ),
      0 ≤ cfg.minSpeed → cfg.minSpeed ≤ IM.MAX_ROTATION_SPEED →
      ∀ t ∈ IM.actuationTargets (IM.handleROT cfg three rdir speed),
        t ≤ (IM.MAX_ROTATION_SPEED : ℚ)) ∧
    (∀ (t : ℚ) (cfg : SpeedCfg), t ≤ (IM.MAX_ROTATION_SPEED : ℚ) →
      (IM.MAX_ROTATION_SPEED : ℤ) < cfg.maxSpeed → t < (cfg.maxSpeed : ℚ)) := by
  refine ⟨?_, ?_, ?_, ?_, ?_⟩
  · intro cfg three speed hm c hc hdir
    have hs := constrainI_mem speed cfg.minSpeed IM.MAX_ROTATION_SPEED hm
    cases three
    · rw [(rotateLeft_eq cfg speed).2] at hc
      simp only [List.mem_cons, List.not_mem_nil, or_false] at hc
      rcases hc with rfl | rfl | rfl
      · exact ⟨by dsimp only; exact_mod_cast hs.1, by dsimp only; exact_mod_cast hs.2⟩
      · exact ⟨by dsimp only; exact_mod_cast hs.1, by dsimp only; exact_mod_cast hs.2⟩
      · exact absurd rfl hdir
    · rw [(rotateLeft_eq cfg speed).1] at hc
      simp only [List.mem_cons, List.not_mem_nil, or_false] at hc
      rcases hc with rfl | rfl | rfl <;>
        exact ⟨by dsimp only; exact_mod_cast hs.1, by dsimp only; exact_mod_cast hs.2⟩
  · intro cfg three speed hm c hc hdir
    have hs := constrainI_mem speed cfg.minSpeed IM.MAX_ROTATION_SPEED hm
    cases three
    · rw [(rotateRight_eq cfg speed).2] at hc
      simp only [List.mem_cons, List.not_mem_nil, or_false] at hc
      rcases hc with rfl | rfl | rfl
      · exact ⟨by dsimp only; exact_mod_cast hs.1, by dsimp only; exact_mod_cast hs.2⟩
      · exact ⟨by dsimp only; exact_mod_cast hs.1, by dsimp only; exact_mod_cast hs.2⟩
      · exact absurd rfl hdir
    · rw [(rotateRight_eq cfg speed).1] at hc
      simp only [List.mem_cons, List.not_mem_nil, or_false] at hc
      rcases hc with rfl | rfl | rfl <;>
        exact ⟨by dsimp only; exact_mod_cast hs.1, by dsimp only; exact_mod_cast hs.2⟩
  · intro cfg il override avoidOn avSt three d dir speed h0 hm hd t ht
    rcases hd with rfl | rfl
    · by_cases ho : override = true
      · simp [IM.executeMovement, ho, IM.actuationTargets] at ht
      · by_cases hlr : (il.left = true ∨ il.right = true)
        · simp [IM.executeMovement, ho, hlr, IM.actuationTargets] at ht
        · simp [IM.executeMovement, ho, hlr, IM.actuationTargets, List.mem_map] at ht
          obtain ⟨c, hc, rfl⟩ := ht
          exact (rotateLeft_target_le cfg three _ hm h0 c hc).2
    · by_cases ho : override = true
      · simp [IM.executeMovement, ho, IM.actuationTargets] at ht
      · by_cases hlr : (il.left = true ∨ il.right = true)
        · simp [IM.executeMovement, ho, hlr, IM.actuationTargets] at ht
        · simp [IM.executeMovement, ho, hlr, IM.actuationTargets, List.mem_map] at ht
          obtain ⟨c, hc, rfl⟩ := ht
          exact (rotateRight_target_le cfg three _ hm h0 c hc).2
  · intro cfg three rdir speed h0 hm t ht
    unfold IM.handleROT at ht
    split_ifs at ht
    · simp only [IM.actuationTargets, List.mem_map] at ht
      obtain ⟨c, hc, rfl⟩ := ht
      exact (rotateLeft_target_le cfg three _ hm h0 c hc).2
    · simp only [IM.actuationTargets, List.mem_map] at ht
      obtain ⟨c, hc, rfl⟩ := ht
      exact (rotateRight_target_le cfg three _ hm h0 c hc).2
    · simp [IM.actuationTargets] at ht
  · intro t cfg h1 h2
    have h3 : (IM.MAX_ROTATION_SPEED : ℚ) < (cfg.maxSpeed : ℚ) := by exact_mod_cast h2
    linarith

/-- Witness for claim C10 at the default configuration (MIN_SPEED = 50,
MAX_SPEED = 100): a rotate-left request at speed 200 through the ROT
handler commands only targets at most MAX_ROTATION_SPEED = 65, and any
such target is below the configured maximum of 100. -/
theorem rotation_speed_cap_witness :
    (∀ t ∈ IM.actuationTargets (IM.handleROT ⟨100, 50⟩ true 1 200),
      t ≤ (IM.MAX_ROTATION_SPEED : ℚ)) ∧
    ((65 : ℚ) ≤ (IM.MAX_ROTATION_SPEED : ℚ) ∧ (IM.MAX_ROTATION_SPEED : ℤ) < 100) ∧
    ∀ c ∈ IM.rotateLeft ⟨100, 50⟩ true 200, c.dir ≠ .STOP →
      ((50 : ℤ) : ℚ) ≤ c.target ∧ c.target ≤ (IM.MAX_ROTATION_SPEED : ℚ) :=
  ⟨rotation_speed_cap.2.2.2.1 ⟨100, 50⟩ true 1 200 (by decide) (by decide),
   ⟨by norm_num [IM.MAX_ROTATION_SPEED], by norm_num [IM.MAX_ROTATION_SPEED]⟩,
   rotation_speed_cap.1 ⟨100, 50⟩ true 200 (by decide)⟩

/-- The duty value `moveMotor` writes — the truncated ramped speed with
the `MIN_SPEED` raise — stays inside `[0, B]` (helper for claim C5). -/
theorem dutyVal_bounds (minS : ℤ) (B cur1 : ℚ)
    (hm0 : 0 ≤ (minS : ℚ)) (hmB : (minS : ℚ) ≤ B)
    (h1 : 0 ≤ cur1) (h2 : cur1 ≤ B) :
    (0 : ℚ) ≤ (((if 0 < truncQ cur1 ∧ truncQ cur1 < minS then minS else truncQ cur1) : ℤ) : ℚ) ∧
      (((if 0 < truncQ cur1 ∧ truncQ cur1 < minS then minS else truncQ cur1) : ℤ) : ℚ) ≤ B := by
  split_ifs with h
  · exact ⟨hm0, hmB⟩
  · exact ⟨by exact_mod_cast truncQ_nonneg h1, le_trans (truncQ_le h1) h2⟩

/-- The integrated_movement `moveMotor` keeps both the motor state and
the written duty cycle inside `[0, B]` whenever the incoming state and
target are inside `[0, B]` (helper for claim C5). -/
theorem IM_moveMotor_bounds (cfg : SpeedCfg) (decel : Bool) (st : IM.MotorSt)
    (dir : Direction) (target : ℚ) (B : ℚ)
    (hm0 : 0 ≤ (cfg.minSpeed : ℚ)) (hmB : (cfg.minSpeed : ℚ) ≤ B)
    (hM0 : 0 ≤ (cfg.maxSpeed : ℚ))
    (hc0 : 0 ≤ st.currentSpeed) (hcB : st.currentSpeed ≤ B)
    (ht0 : 0 ≤ target) (htB : target ≤ B) :
    (0 ≤ (IM.moveMotor cfg decel st dir target).1.currentSpeed ∧
      (IM.moveMotor cfg decel st dir target).1.currentSpeed ≤ B) ∧
    (∀ z ∈ (IM.moveMotor cfg decel st dir target).2, (0 : ℚ) ≤ (z : ℚ) ∧ (z : ℚ) ≤ B) := by
  have hdelta : 0 ≤ (cfg.maxSpeed : ℚ) * IM.ACCEL_RATE :=
    mul_nonneg hM0 (by norm_num [IM.ACCEL_RATE])
  have hB0 : (0 : ℚ) ≤ B := le_trans hc0 hcB
  have hcur0 : 0 ≤ IM.motorCur0 st dir ∧ IM.motorCur0 st dir ≤ B := by
    unfold IM.motorCur0
    split_ifs
    · exact ⟨le_refl 0, hB0⟩
    · exact ⟨hc0, hcB⟩
  have hr : 0 ≤ IM.motorCur1 cfg st dir target ∧ IM.motorCur1 cfg st dir target ≤ B := by
    unfold IM.motorCur1
    exact rampStep_bounds hdelta hcur0.1 hcur0.2 ht0 htB
  have hduty : (0 : ℚ) ≤ ((IM.motorDuty cfg st dir target : ℤ) : ℚ) ∧
      ((IM.motorDuty cfg st dir target : ℤ) : ℚ) ≤ B := by
    unfold IM.motorDuty
    exact dutyVal_bounds cfg.minSpeed B (IM.motorCur1 cfg st dir target) hm0 hmB hr.1 hr.2
  unfold IM.moveMotor
  rcases dir
  · exact ⟨⟨hr.1, hr.2⟩, by intro z hz; rw [Option.mem_def, Option.some_inj] at hz; subst hz; exact hduty⟩
  · exact ⟨⟨hr.1, hr.2⟩, by intro z hz; rw [Option.mem_def, Option.some_inj] at hz; subst hz; exact hduty⟩
  · split_ifs
    · exact ⟨⟨hr.1, hr.2⟩, by intro z hz; simp at hz⟩
    · refine ⟨⟨le_refl 0, hB0⟩, ?_⟩
      intro z hz
      rw [Option.mem_def, Option.some_inj] at hz
      subst hz
      norm_num
      exact hB0

/-- The part_000 `moveMotor` clamps its target to `[0, MAX_SPEED]` and
keeps both the motor state and the written duty cycle in that range
whenever the incoming `currentSpeed` is in range (helper for C5). -/
theorem ATC_moveMotor_bounds (cfg : SpeedCfg) (cur : ℚ) (dir : Direction) (target : ℚ)
    (hM0 : 0 ≤ (cfg.maxSpeed : ℚ)) (hc0 : 0 ≤ cur) (hcB : cur ≤ (cfg.maxSpeed : ℚ)) :
    (0 ≤ (ATC.moveMotor cfg cur dir target).1 ∧
      (ATC.moveMotor cfg cur dir target).1 ≤ (cfg.maxSpeed : ℚ)) ∧
    (∀ z ∈ (ATC.moveMotor cfg cur dir target).2,
      (0 : ℚ) ≤ (z : ℚ) ∧ (z : ℚ) ≤ (cfg.maxSpeed : ℚ)) := by
  have hdelta : 0 ≤ (cfg.maxSpeed : ℚ) * ATC.ACCEL_RATE :=
    mul_nonneg hM0 (by norm_num [ATC.ACCEL_RATE])
  have htc : 0 ≤ constrainQ target 0 (cfg.maxSpeed : ℚ) ∧
      constrainQ target 0 (cfg.maxSpeed : ℚ) ≤ (cfg.maxSpeed : ℚ) := by
    unfold constrainQ
    split_ifs with hx hy
    · exact ⟨le_refl 0, hM0⟩
    · exact ⟨hM0, le_refl _⟩
    · exact ⟨le_of_not_lt hx, le_of_not_lt hy⟩
  have hr := rampStep_bounds hdelta hc0 hcB htc.1 htc.2
  unfold ATC.moveMotor
  rcases dir
  · refine ⟨⟨hr.1, hr.2⟩, ?_⟩
    intro z hz
    rw [Option.mem_def, Option.some_inj] at hz
    subst hz
    exact ⟨by exact_mod_cast truncQ_nonneg hr.1, le_trans (truncQ_le hr.1) hr.2⟩
  · refine ⟨⟨hr.1, hr.2⟩, ?_⟩
    intro z hz
    rw [Option.mem_def, Option.some_inj] at hz
    subst hz
    exact ⟨by exact_mod_cast truncQ_nonneg hr.1, le_trans (truncQ_le hr.1) hr.2⟩
  · refine ⟨⟨le_refl 0, hM0⟩, ?_⟩
    intro z hz
    rw [Option.mem_def, Option.some_inj] at hz
    subst hz
    norm_num
    exact_mod_cast hM0

/-- A three-command actuation is bounded when each command is (helper
for claim C5). -/
theorem cmds3_bounded (B : ℚ) (c1 c2 c3 : MotorCmd)
    (h1 : 0 ≤ c1.target ∧ c1.target ≤ B)
    (h2 : 0 ≤ c2.target ∧ c2.target ≤ B)
    (h3 : 0 ≤ c3.target ∧ c3.target ≤ B) :
    IM.cmdsBounded B (.cmds [c1, c2, c3]) := by
  intro t ht
  simp only [IM.actuationTargets, List.map_cons, List.map_nil, List.mem_cons,
    List.not_mem_nil, or_false] at ht
  rcases ht with rfl | rfl | rfl
  exacts [h1, h2, h3]

/-- Actuations that issue no motor command are trivially bounded
(helper for claim C5). -/
theorem blocked_bounded (B : ℚ) : IM.cmdsBounded B .blocked := by
  intro t ht
  simp [IM.actuationTargets] at ht

/-- Delegation to the avoidance routine issues no direct command
(helper for claim C5). -/
theorem delegated_bounded (B : ℚ) : IM.cmdsBounded B .delegated := by
  intro t ht
  simp [IM.actuationTargets] at ht

/-- `stopAllMotors` starts the deceleration module and issues no direct
command (helper for claim C5). -/
theorem stopAll_bounded (B : ℚ) : IM.cmdsBounded B .stopAll := by
  intro t ht
  simp [IM.actuationTargets] at ht

/-- The cast of an integer max into the rationals (helper). -/
theorem castMaxQ (a b : ℤ) : ((max a b : ℤ) : ℚ) = max (a : ℚ) (b : ℚ) := by
  rcases le_total a b with h | h
  · rw [max_eq_right h, max_eq_right (by exact_mod_cast h)]
  · rw [max_eq_left h, max_eq_left (by exact_mod_cast h)]

/-- Speeds clamped to `[MIN_SPEED, MAX_SPEED]` lie in
`[0, max MAX_SPEED 65]` (helper for claim C5). -/
theorem constrained_speed_bounds (cfg : SpeedCfg) (x : ℤ)
    (h0 : 0 ≤ cfg.minSpeed) (h1 : cfg.minSpeed ≤ cfg.maxSpeed) :
    0 ≤ ((constrainI x cfg.minSpeed cfg.maxSpeed : ℤ) : ℚ) ∧
      ((constrainI x cfg.minSpeed cfg.maxSpeed : ℤ) : ℚ) ≤ max (cfg.maxSpeed : ℚ) 65 := by
  have h := constrainI_mem x cfg.minSpeed cfg.maxSpeed h1
  constructor
  · exact_mod_cast le_trans h0 h.1
  · exact le_trans (by exact_mod_cast h.2) (le_max_left _ _)

/-- Speeds clamped to `[MIN_SPEED, MAX_ROTATION_SPEED]` lie in
`[0, max MAX_SPEED 65]` (helper for claim C5). -/
theorem constrained_rotation_bounds (cfg : SpeedCfg) (x : ℤ)
    (h0 : 0 ≤ cfg.minSpeed) (h1 : cfg.minSpeed ≤ cfg.maxSpeed) :
    0 ≤ ((constrainI x cfg.minSpeed IM.MAX_ROTATION_SPEED : ℤ) : ℚ) ∧
      ((constrainI x cfg.minSpeed IM.MAX_ROTATION_SPEED : ℤ) : ℚ) ≤ max (cfg.maxSpeed : ℚ) 65 := by
  have h := constrainI_bounds x cfg.minSpeed IM.MAX_ROTATION_SPEED h0
    (by norm_num [IM.MAX_ROTATION_SPEED])
  constructor
  · exact_mod_cast h.1
  · refine le_trans (show ((constrainI x cfg.minSpeed IM.MAX_ROTATION_SPEED : ℤ) : ℚ) ≤
        ((max cfg.minSpeed IM.MAX_ROTATION_SPEED : ℤ) : ℚ) by exact_mod_cast h.2) ?_
    rw [castMaxQ]
    exact max_le_max (by exact_mod_cast h1) (by norm_num [IM.MAX_ROTATION_SPEED])

/-- A bounded nonnegative speed scaled by a factor in [0, 1] stays
bounded (helper for claim C5). -/
theorem scaled_speed_bounds {s B k : ℚ} (hk0 : 0 ≤ k) (hk1 : k ≤ 1)
    (h : 0 ≤ s ∧ s ≤ B) : 0 ≤ s * k ∧ s * k ≤ B :=
  ⟨mul_nonneg h.1 hk0, le_trans (mul_le_of_le_one_right h.1 hk1) h.2⟩

/-- The zero command of an idle wheel is bounded (helper for C5). -/
theorem zero_target_bounds (cfg : SpeedCfg) :
    (0 : ℚ) ≤ (0 : ℚ) ∧ (0 : ℚ) ≤ max (cfg.maxSpeed : ℚ) 65 :=
  ⟨le_refl 0, le_trans (by norm_num) (le_max_right _ _)⟩

/-- All `rotateLeft` commands are bounded by `max MAX_SPEED 65` (helper
for claim C5; unlike the C10 bound this needs no relation between
`MIN_SPEED` and `MAX_ROTATION_SPEED`). -/
theorem rotateLeft_cmds_bounded (cfg : SpeedCfg) (three : Bool) (speed : ℤ)
    (h0 : 0 ≤ cfg.minSpeed) (h1 : cfg.minSpeed ≤ cfg.maxSpeed) :
    IM.cmdsBounded (max (cfg.maxSpeed : ℚ) 65) (.cmds (IM.rotateLeft cfg three speed)) := by
  intro t ht
  simp only [IM.actuationTargets, List.mem_map] at ht
  obtain ⟨c, hc, rfl⟩ := ht
  have hr := constrained_rotation_bounds cfg speed h0 h1
  cases three
  · rw [(rotateLeft_eq cfg speed).2] at hc
    simp only [List.mem_cons, List.not_mem_nil, or_false] at hc
    rcases hc with rfl | rfl | rfl
    · exact hr
    · exact hr
    · exact zero_target_bounds cfg
  · rw [(rotateLeft_eq cfg speed).1] at hc
    simp only [List.mem_cons, List.not_mem_nil, or_false] at hc
    rcases hc with rfl | rfl | rfl <;> exact hr

/-- All `rotateRight` commands are bounded by `max MAX_SPEED 65`
(helper for claim C5). -/
theorem rotateRight_cmds_bounded (cfg : SpeedCfg) (three : Bool) (speed : ℤ)
    (h0 : 0 ≤ cfg.minSpeed) (h1 : cfg.minSpeed ≤ cfg.maxSpeed) :
    IM.cmdsBounded (max (cfg.maxSpeed : ℚ) 65) (.cmds (IM.rotateRight cfg three speed)) := by
  intro t ht
  simp only [IM.actuationTargets, List.mem_map] at ht
  obtain ⟨c, hc, rfl⟩ := ht
  have hr := constrained_rotation_bounds cfg speed h0 h1
  cases three
  · rw [(rotateRight_eq cfg speed).2] at hc
    simp only [List.mem_cons, List.not_mem_nil, or_false] at hc
    rcases hc with rfl | rfl | rfl
    · exact hr
    · exact hr
    · exact zero_target_bounds cfg
  · rw [(rotateRight_eq cfg speed).1] at hc
    simp only [List.mem_cons, List.not_mem_nil, or_false] at hc
    rcases hc with rfl | rfl | rfl <;> exact hr

/-- `moveForward` only issues commands bounded by `max MAX_SPEED 65`
(helper for claim C5). -/
theorem moveForward_bounded (cfg : SpeedCfg) (il : Interlocks) (avoidOn : Bool)
    (avSt : IM.AvoidanceState) (three : Bool) (speed : ℤ)
    (h0 : 0 ≤ cfg.minSpeed) (h1 : cfg.minSpeed ≤ cfg.maxSpeed) :
    IM.cmdsBounded (max (cfg.maxSpeed : ℚ) 65)
      (IM.moveForward cfg il avoidOn avSt three speed) := by
  have hs := constrained_speed_bounds cfg speed h0 h1
  unfold IM.moveForward
  split_ifs
  · exact delegated_bounded _
  · exact blocked_bounded _
  · exact delegated_bounded _
  · exact cmds3_bounded _ _ _ _ hs hs hs
  · exact cmds3_bounded _ _ _ _ hs hs (zero_target_bounds cfg)

/-- `moveBackward` only issues bounded commands (helper for C5). -/
theorem moveBackward_bounded (cfg : SpeedCfg) (il : Interlocks) (three : Bool) (speed : ℤ)
    (h0 : 0 ≤ cfg.minSpeed) (h1 : cfg.minSpeed ≤ cfg.maxSpeed) :
    IM.cmdsBounded (max (cfg.maxSpeed : ℚ) 65) (IM.moveBackward cfg il three speed) := by
  have hs := constrained_speed_bounds cfg speed h0 h1
  unfold IM.moveBackward
  split_ifs
  · exact blocked_bounded _
  · exact cmds3_bounded _ _ _ _ hs hs hs
  · exact cmds3_bounded _ _ _ _ hs hs (zero_target_bounds cfg)

/-- `turnLeft` only issues bounded commands (helper for C5). -/
theorem turnLeft_bounded (cfg : SpeedCfg) (il : Interlocks) (three : Bool) (speed : ℤ)
    (h0 : 0 ≤ cfg.minSpeed) (h1 : cfg.minSpeed ≤ cfg.maxSpeed) :
    IM.cmdsBounded (max (cfg.maxSpeed : ℚ) 65) (IM.turnLeft cfg il three speed) := by
  have hr := constrained_rotation_bounds cfg speed h0 h1
  have hm0 : (0 : ℚ) ≤ (cfg.minSpeed : ℚ) := by exact_mod_cast h0
  have hmM : (cfg.minSpeed : ℚ) ≤ (cfg.maxSpeed : ℚ) := by exact_mod_cast h1
  have hM0 : (0 : ℚ) ≤ (cfg.maxSpeed : ℚ) := le_trans hm0 hmM
  have hv1 : 0 ≤ max (cfg.minSpeed : ℚ)
      (((constrainI speed cfg.minSpeed IM.MAX_ROTATION_SPEED : ℤ) : ℚ) * (1/2)) :=
    le_trans hm0 (le_max_left _ _)
  have hv1B : max (cfg.minSpeed : ℚ)
      (((constrainI speed cfg.minSpeed IM.MAX_ROTATION_SPEED : ℤ) : ℚ) * (1/2)) ≤
      max (cfg.maxSpeed : ℚ) 65 :=
    max_le (le_trans hmM (le_max_left _ _))
      (le_trans (mul_le_of_le_one_right hr.1 (by norm_num)) hr.2)
  have hv2 : 0 ≤ min (cfg.maxSpeed : ℚ)
      (((constrainI speed cfg.minSpeed IM.MAX_ROTATION_SPEED : ℤ) : ℚ) * (3/2)) :=
    le_min hM0 (mul_nonneg hr.1 (by norm_num))
  have hv2B : min (cfg.maxSpeed : ℚ)
      (((constrainI speed cfg.minSpeed IM.MAX_ROTATION_SPEED : ℤ) : ℚ) * (3/2)) ≤
      max (cfg.maxSpeed : ℚ) 65 :=
    le_trans (min_le_left _ _) (le_max_left _ _)
  have hd1 : (0 : ℚ) ≤ ((truncQ (max (cfg.minSpeed : ℚ)
        (((constrainI speed cfg.minSpeed IM.MAX_ROTATION_SPEED : ℤ) : ℚ) * (1/2))) : ℤ) : ℚ) ∧
      ((truncQ (max (cfg.minSpeed : ℚ)
        (((constrainI speed cfg.minSpeed IM.MAX_ROTATION_SPEED : ℤ) : ℚ) * (1/2))) : ℤ) : ℚ) ≤
        max (cfg.maxSpeed : ℚ) 65 :=
    ⟨by exact_mod_cast truncQ_nonneg hv1, le_trans (truncQ_le hv1) hv1B⟩
  have hd2 : (0 : ℚ) ≤ ((truncQ (min (cfg.maxSpeed : ℚ)
        (((constrainI speed cfg.minSpeed IM.MAX_ROTATION_SPEED : ℤ) : ℚ) * (3/2))) : ℤ) : ℚ) ∧
      ((truncQ (min (cfg.maxSpeed : ℚ)
        (((constrainI speed cfg.minSpeed IM.MAX_ROTATION_SPEED : ℤ) : ℚ) * (3/2))) : ℤ) : ℚ) ≤
        max (cfg.maxSpeed : ℚ) 65 :=
    ⟨by exact_mod_cast truncQ_nonneg hv2, le_trans (truncQ_le hv2) hv2B⟩
  have hd3 := scaled_speed_bounds (by norm_num : (0:ℚ) ≤ 3/4) (by norm_num) hr
  unfold IM.turnLeft
  split_ifs
  · exact blocked_bounded _
  · exact cmds3_bounded _ _ _ _ hd1 hd2 hd3
  · exact cmds3_bounded _ _ _ _ hd1 hd2 (zero_target_bounds cfg)

/-- `turnRight` only issues bounded commands (helper for C5). -/
theorem turnRight_bounded (cfg : SpeedCfg) (il : Interlocks) (three : Bool) (speed : ℤ)
    (h0 : 0 ≤ cfg.minSpeed) (h1 : cfg.minSpeed ≤ cfg.maxSpeed) :
    IM.cmdsBounded (max (cfg.maxSpeed : ℚ) 65) (IM.turnRight cfg il three speed) := by
  have hr := constrained_rotation_bounds cfg speed h0 h1
  have hm0 : (0 : ℚ) ≤ (cfg.minSpeed : ℚ) := by exact_mod_cast h0
  have hmM : (cfg.minSpeed : ℚ) ≤ (cfg.maxSpeed : ℚ) := by exact_mod_cast h1
  have hM0 : (0 : ℚ) ≤ (cfg.maxSpeed : ℚ) := le_trans hm0 hmM
  have hv1 : 0 ≤ min (cfg.maxSpeed : ℚ)
      (((constrainI speed cfg.minSpeed IM.MAX_ROTATION_SPEED : ℤ) : ℚ) * (3/2)) :=
    le_min hM0 (mul_nonneg hr.1 (by norm_num))
  have hv1B : min (cfg.maxSpeed : ℚ)
      (((constrainI speed cfg.minSpeed IM.MAX_ROTATION_SPEED : ℤ) : ℚ) * (3/2)) ≤
      max (cfg.maxSpeed : ℚ) 65 :=
    le_trans (min_le_left _ _) (le_max_left _ _)
  have hv2 : 0 ≤ max (cfg.minSpeed : ℚ)
      (((constrainI speed cfg.minSpeed IM.MAX_ROTATION_SPEED : ℤ) : ℚ) * (1/2)) :=
    le_trans hm0 (le_max_left _ _)
  have hv2B : max (cfg.minSpeed : ℚ)
      (((constrainI speed cfg.minSpeed IM.MAX_ROTATION_SPEED : ℤ) : ℚ) * (1/2)) ≤
      max (cfg.maxSpeed : ℚ) 65 :=
    max_le (le_trans hmM (le_max_left _ _))
      (le_trans (mul_le_of_le_one_right hr.1 (by norm_num)) hr.2)
  have hd1 : (0 : ℚ) ≤ ((truncQ (min (cfg.maxSpeed : ℚ)
        (((constrainI speed cfg.minSpeed IM.MAX_ROTATION_SPEED : ℤ) : ℚ) * (3/2))) : ℤ) : ℚ) ∧
      ((truncQ (min (cfg.maxSpeed : ℚ)
        (((constrainI speed cfg.minSpeed IM.MAX_ROTATION_SPEED : ℤ) : ℚ) * (3/2))) : ℤ) : ℚ) ≤
        max (cfg.maxSpeed : ℚ) 65 :=
    ⟨by exact_mod_cast truncQ_nonneg hv1, le_trans (truncQ_le hv1) hv1B⟩
  have hd2 : (0 : ℚ) ≤ ((truncQ (max (cfg.minSpeed : ℚ)
        (((constrainI speed cfg.minSpeed IM.MAX_ROTATION_SPEED : ℤ) : ℚ) * (1/2))) : ℤ) : ℚ) ∧
      ((truncQ (max (cfg.minSpeed : ℚ)
        (((constrainI speed cfg.minSpeed IM.MAX_ROTATION_SPEED : ℤ) : ℚ) * (1/2))) : ℤ) : ℚ) ≤
        max (cfg.maxSpeed : ℚ) 65 :=
    ⟨by exact_mod_cast truncQ_nonneg hv2, le_trans (truncQ_le hv2) hv2B⟩
  have hd3 := scaled_speed_bounds (by norm_num : (0:ℚ) ≤ 3/4) (by norm_num) hr
  unfold IM.turnRight
  split_ifs
  · exact blocked_bounded _
  · exact cmds3_bounded _ _ _ _ hd1 hd2 hd3
  · exact cmds3_bounded _ _ _ _ hd1 hd2 (zero_target_bounds cfg)

/-- `slideLeft` only issues bounded commands (helper for C5). -/
theorem slideLeft_bounded (cfg : SpeedCfg) (il : Interlocks) (three : Bool) (speed : ℤ)
    (h0 : 0 ≤ cfg.minSpeed) (h1 : cfg.minSpeed ≤ cfg.maxSpeed) :
    IM.cmdsBounded (max (cfg.maxSpeed : ℚ) 65) (IM.slideLeft cfg il three speed) := by
  have hs := constrained_speed_bounds cfg speed h0 h1
  unfold IM.slideLeft
  split_ifs
  · exact blocked_bounded _
  · exact cmds3_bounded _ _ _ _ (zero_target_bounds cfg) hs hs
  · exact rotateLeft_cmds_bounded cfg three _ h0 h1
  · exact blocked_bounded _

/-- `slideRight` only issues bounded commands (helper for C5). -/
theorem slideRight_bounded (cfg : SpeedCfg) (il : Interlocks) (three : Bool) (speed : ℤ)
    (h0 : 0 ≤ cfg.minSpeed) (h1 : cfg.minSpeed ≤ cfg.maxSpeed) :
    IM.cmdsBounded (max (cfg.maxSpeed : ℚ) 65) (IM.slideRight cfg il three speed) := by
  have hs := constrained_speed_bounds cfg speed h0 h1
  unfold IM.slideRight
  split_ifs
  · exact blocked_bounded _
  · exact cmds3_bounded _ _ _ _ hs (zero_target_bounds cfg) hs
  · exact rotateRight_cmds_bounded cfg three _ h0 h1
  · exact blocked_bounded _

/-- The four diagonal movements only issue bounded commands (helper for
claim C5). -/
theorem diagonals_bounded (cfg : SpeedCfg) (il : Interlocks) (three : Bool) (speed : ℤ)
    (h0 : 0 ≤ cfg.minSpeed) (h1 : cfg.minSpeed ≤ cfg.maxSpeed) :
    IM.cmdsBounded (max (cfg.maxSpeed : ℚ) 65) (IM.moveDiagonalForwardLeft cfg il three speed) ∧
    IM.cmdsBounded (max (cfg.maxSpeed : ℚ) 65) (IM.moveDiagonalForwardRight cfg il three speed) ∧
    IM.cmdsBounded (max (cfg.maxSpeed : ℚ) 65) (IM.moveDiagonalBackwardLeft cfg il three speed) ∧
    IM.cmdsBounded (max (cfg.maxSpeed : ℚ) 65) (IM.moveDiagonalBackwardRight cfg il three speed) := by
  have hs := constrained_speed_bounds cfg speed h0 h1
  have h310 := scaled_speed_bounds (by norm_num : (0:ℚ) ≤ 3/10) (by norm_num) hs
  have h35 := scaled_speed_bounds (by norm_num : (0:ℚ) ≤ 3/5) (by norm_num) hs
  refine ⟨?_, ?_, ?_, ?_⟩
  · unfold IM.moveDiagonalForwardLeft
    split_ifs
    · exact blocked_bounded _
    · exact cmds3_bounded _ _ _ _ h310 hs h35
    · exact cmds3_bounded _ _ _ _ h310 hs (zero_target_bounds cfg)
  · unfold IM.moveDiagonalForwardRight
    split_ifs
    · exact blocked_bounded _
    · exact cmds3_bounded _ _ _ _ hs h310 h35
    · exact cmds3_bounded _ _ _ _ hs h310 (zero_target_bounds cfg)
  · unfold IM.moveDiagonalBackwardLeft
    split_ifs
    · exact blocked_bounded _
    · exact cmds3_bounded _ _ _ _ h310 hs h35
    · exact cmds3_bounded _ _ _ _ h310 hs (zero_target_bounds cfg)
  · unfold IM.moveDiagonalBackwardRight
    split_ifs
    · exact blocked_bounded _
    · exact cmds3_bounded _ _ _ _ hs h310 h35
    · exact cmds3_bounded _ _ _ _ hs h310 (zero_target_bounds cfg)

set_option maxHeartbeats 1000000 in
/-- Every outcome of `executeMovement` only carries motor targets in
`[0, max MAX_SPEED 65]` (helper for claim C5). -/
theorem executeMovement_bounded (cfg : SpeedCfg) (il : Interlocks) (override : Bool)
    (avoidOn : Bool) (avSt : IM.AvoidanceState) (three : Bool) (d : Dist6)
    (direction desiredSpeed : ℤ)
    (hm0 : 0 ≤ cfg.minSpeed) (hm1 : cfg.minSpeed ≤ cfg.maxSpeed) :
    IM.cmdsBounded (max (cfg.maxSpeed : ℚ) 65)
      (IM.executeMovement cfg il override avoidOn avSt three d direction desiredSpeed) := by
  unfold IM.executeMovement
  by_cases ho : override = true
  · rw [if_pos ho]; exact blocked_bounded _
  rw [if_neg ho]
  by_cases hv : direction = 1 ∧ il.front = true ∨ direction = 2 ∧ il.back = true ∨
      direction = 3 ∧ il.left = true ∨ direction = 4 ∧ il.right = true ∨
      direction = 5 ∧ (il.left = true ∨ il.right = true) ∨
      direction = 6 ∧ (il.left = true ∨ il.right = true)
  · rw [if_pos hv]; exact blocked_bounded _
  rw [if_neg hv]
  dsimp only
  by_cases h1 : direction = 1
  · rw [if_pos h1]; exact moveForward_bounded cfg il avoidOn avSt three _ hm0 hm1
  rw [if_neg h1]
  by_cases h2 : direction = 2
  · rw [if_pos h2]; exact moveBackward_bounded cfg il three _ hm0 hm1
  rw [if_neg h2]
  by_cases h3 : direction = 3
  · rw [if_pos h3]; exact turnLeft_bounded cfg il three _ hm0 hm1
  rw [if_neg h3]
  by_cases h4 : direction = 4
  · rw [if_pos h4]; exact turnRight_bounded cfg il three _ hm0 hm1
  rw [if_neg h4]
  by_cases h5 : direction = 5
  · rw [if_pos h5]; exact rotateLeft_cmds_bounded cfg three _ hm0 hm1
  rw [if_neg h5]
  by_cases h6 : direction = 6
  · rw [if_pos h6]; exact rotateRight_cmds_bounded cfg three _ hm0 hm1
  rw [if_neg h6]
  by_cases h7 : direction = 7
  · rw [if_pos h7]; exact slideLeft_bounded cfg il three _ hm0 hm1
  rw [if_neg h7]
  by_cases h8 : direction = 8
  · rw [if_pos h8]; exact slideRight_bounded cfg il three _ hm0 hm1
  rw [if_neg h8]
  by_cases h9 : direction = 9
  · rw [if_pos h9]; exact (diagonals_bounded cfg il three _ hm0 hm1).1
  rw [if_neg h9]
  by_cases h10 : direction = 10
  · rw [if_pos h10]; exact (diagonals_bounded cfg il three _ hm0 hm1).2.1
  rw [if_neg h10]
  by_cases h11 : direction = 11
  · rw [if_pos h11]; exact (diagonals_bounded cfg il three _ hm0 hm1).2.2.1
  rw [if_neg h11]
  by_cases h12 : direction = 12
  · rw [if_pos h12]; exact (diagonals_bounded cfg il three _ hm0 hm1).2.2.2
  rw [if_neg h12]
  exact stopAll_bounded _

/-- The `ROT` serial handler only issues motor targets in
`[0, max MAX_SPEED 65]` (helper for claim C5). -/
theorem handleROT_bounded (cfg : SpeedCfg) (three : Bool) (dir speed : ℤ)
    (hm0 : 0 ≤ cfg.minSpeed) (hm1 : cfg.minSpeed ≤ cfg.maxSpeed) :
    IM.cmdsBounded (max (cfg.maxSpeed : ℚ) 65) (IM.handleROT cfg three dir speed) := by
  unfold IM.handleROT
  dsimp only
  by_cases h1 : dir = 1
  · rw [if_pos h1]; exact rotateLeft_cmds_bounded cfg three _ hm0 hm1
  rw [if_neg h1]
  by_cases h2 : dir = 2
  · rw [if_pos h2]; exact rotateRight_cmds_bounded cfg three _ hm0 hm1
  rw [if_neg h2]
  exact stopAll_bounded _

set_option maxRecDepth 8000 in
/-- Claim C5 counterexample: with the speed configuration the SPEED
handler installs for `SPEED:50,45` (MAX_SPEED = 50, MIN_SPEED = 45), the
command `ROT:1,200` issues a back-wheel BACKWARD target of 65 — the
rotation clamp's ceiling, above MAX_SPEED — and `moveMotor` is called
with that unclamped target: after eight ramping calls the ninth call
writes the duty cycle 65 to the PWM output, which exceeds
MAX_SPEED = 50.  The desired speed is therefore not clamped to
`[0, MAX_SPEED]` before actuation on the rotation path, refuting the
claim. -/
theorem wheel_output_exceeds_max_counterexample :
    (IM.handleSPEED ['5', '0', ',', '4', '5'] ⟨100, 50⟩).1 = ⟨50, 45⟩ ∧
    IM.handleROT ⟨50, 45⟩ true 1 200 =
      .cmds [⟨.left, .FORWARD, ((65 : ℤ) : ℚ)⟩, ⟨.right, .FORWARD, ((65 : ℤ) : ℚ)⟩,
        ⟨.back, .BACKWARD, ((65 : ℤ) : ℚ)⟩] ∧
    (IM.moveMotor ⟨50, 45⟩ false
        ((fun st => (IM.moveMotor ⟨50, 45⟩ false st .BACKWARD ((65 : ℤ) : ℚ)).1)^[8]
          ⟨0, .STOP⟩)
        .BACKWARD ((65 : ℤ) : ℚ)).2 = some 65 ∧
    ¬ ((65 : ℤ) ≤ (⟨50, 45⟩ : SpeedCfg).maxSpeed) := by
  refine ⟨by decide, by decide, ?_, by decide⟩
  have h8 : ((fun st => (IM.moveMotor ⟨50, 45⟩ false st .BACKWARD ((65 : ℤ) : ℚ)).1)^[8]
      (⟨0, .STOP⟩ : IM.MotorSt)) = ⟨60, .BACKWARD⟩ := by
    simp only [Function.iterate_succ, Function.iterate_zero, Function.comp_apply, id_eq]
    norm_num [IM.moveMotor, IM.motorCur1, IM.motorCur0, IM.ACCEL_RATE, rampStep, min_def, max_def]
  rw [h8]
  norm_num [IM.moveMotor, IM.motorCur1, IM.motorCur0, IM.motorDuty, IM.ACCEL_RATE, rampStep, truncQ,
    min_def, max_def]

/-- Claim C5 (amended): the clamp to `[0, MAX_SPEED]` holds as stated
only on the part_000 path, whose `moveMotor` clamps its target up front;
in integrated_movement the bound that actually holds on every wheel
output is `[0, max MAX_SPEED MAX_ROTATION_SPEED]`: (1) every command
`executeMovement` issues on any call path (discrete maneuvers, arc turns
with their 1.5x outer wheel, rotations) has its target in
`[0, max MAX_SPEED 65]`; (2) the same bound holds for the `ROT` serial
handler; (3) when `MAX_SPEED ≥ 65` — true for the default 100 but not
for every `SPEED`-configurable value — that bound collapses to
`[0, MAX_SPEED]`, recovering the original claim; (4) integrated_movement's
`moveMotor` writes a duty in `[0, B]` whenever its incoming state and
target are in `[0, B]` and `MIN_SPEED ≤ B` (it performs no clamp of its
own); (5) part_000's `moveMotor` clamps unconditionally, so its written
duty is always in `[0, MAX_SPEED]` once `currentSpeed` starts in
range. -/
theorem wheel_output_bounds_amended :
    (∀ (cfg : SpeedCfg) (il : Interlocks) (override avoidOn : Bool)
        (avSt : IM.AvoidanceState) (three : Bool) (d : Dist6) (direction desiredSpeed : ℤ),
      0 ≤ cfg.minSpeed → cfg.minSpeed ≤ cfg.maxSpeed →
      IM.cmdsBounded (max (cfg.maxSpeed : ℚ) 65)
        (IM.executeMovement cfg il override avoidOn avSt three d direction desiredSpeed)) ∧
    (∀ (cfg : SpeedCfg) (three : Bool) (dir speed : ℤ),
      0 ≤ cfg.minSpeed → cfg.minSpeed ≤ cfg.maxSpeed →
      IM.cmdsBounded (max (cfg.maxSpeed : ℚ) 65) (IM.handleROT cfg three dir speed)) ∧
    (∀ cfg : SpeedCfg, (65 : ℤ) ≤ cfg.maxSpeed → max (cfg.maxSpeed : ℚ) 65 = (cfg.maxSpeed : ℚ)) ∧
    (∀ (cfg : SpeedCfg) (decel : Bool) (st : IM.MotorSt) (dir : Direction) (target B : ℚ),
      0 ≤ (cfg.minSpeed : ℚ) → (cfg.minSpeed : ℚ) ≤ B → 0 ≤ (cfg.maxSpeed : ℚ) →
      0 ≤ st.currentSpeed → st.currentSpeed ≤ B → 0 ≤ target → target ≤ B →
      ∀ z ∈ (IM.moveMotor cfg decel st dir target).2, (0 : ℚ) ≤ (z : ℚ) ∧ (z : ℚ) ≤ B) ∧
    (∀ (cfg : SpeedCfg) (cur : ℚ) (dir : Direction) (target : ℚ),
      0 ≤ (cfg.maxSpeed : ℚ) → 0 ≤ cur → cur ≤ (cfg.maxSpeed : ℚ) →
      ∀ z ∈ (ATC.moveMotor cfg cur dir target).2,
        (0 : ℚ) ≤ (z : ℚ) ∧ (z : ℚ) ≤ (cfg.maxSpeed : ℚ)) := by
  refine ⟨?_, ?_, ?_, ?_, ?_⟩
  · intro cfg il override avoidOn avSt three d direction desiredSpeed h0 h1
    exact executeMovement_bounded cfg il override avoidOn avSt three d direction desiredSpeed h0 h1
  · intro cfg three dir speed h0 h1
    exact handleROT_bounded cfg three dir speed h0 h1
  · intro cfg h
    exact max_eq_left (by exact_mod_cast h)
  · intro cfg decel st dir target B hm0 hmB hM0 hc0 hcB ht0 htB
    exact (IM_moveMotor_bounds cfg decel st dir target B hm0 hmB hM0 hc0 hcB ht0 htB).2
  · intro cfg cur dir target hM0 hc0 hcB
    exact (ATC_moveMotor_bounds cfg cur dir target hM0 hc0 hcB).2

/-- Witness for the amended claim C5: at the default configuration
(MAX_SPEED = 100, MIN_SPEED = 50) a left rotation at requested speed 200,
the `ROT` handler, the bound collapse `max 100 65 = 100`, and a part_000
`moveMotor` call at target 500 are all inside the proved bounds. -/
theorem wheel_output_bounds_amended_witness :
    IM.cmdsBounded (max (((⟨100, 50⟩ : SpeedCfg).maxSpeed : ℤ) : ℚ) 65)
      (IM.executeMovement ⟨100, 50⟩ ⟨false, false, false, false⟩ false false .IDLE true
        ⟨100, 100, 100, 100, 100, 100⟩ 5 200) ∧
    IM.cmdsBounded (max (((⟨100, 50⟩ : SpeedCfg).maxSpeed : ℤ) : ℚ) 65)
      (IM.handleROT ⟨100, 50⟩ true 1 200) ∧
    max (((⟨100, 50⟩ : SpeedCfg).maxSpeed : ℤ) : ℚ) 65 = (((⟨100, 50⟩ : SpeedCfg).maxSpeed : ℤ) : ℚ) ∧
    (∀ z ∈ (ATC.moveMotor ⟨150, 100⟩ 0 .FORWARD 500).2,
      (0 : ℚ) ≤ (z : ℚ) ∧ (z : ℚ) ≤ (((⟨150, 100⟩ : SpeedCfg).maxSpeed : ℤ) : ℚ)) :=
  ⟨wheel_output_bounds_amended.1 ⟨100, 50⟩ ⟨false, false, false, false⟩ false false .IDLE true
      ⟨100, 100, 100, 100, 100, 100⟩ 5 200 (by decide) (by decide),
   wheel_output_bounds_amended.2.1 ⟨100, 50⟩ true 1 200 (by decide) (by decide),
   wheel_output_bounds_amended.2.2.1 ⟨100, 50⟩ (by decide),
   wheel_output_bounds_amended.2.2.2.2 ⟨150, 100⟩ 0 .FORWARD 500 (by norm_num) (le_refl 0)
     (by norm_num)⟩
